import Mathlib

/-!
Verification of the NecroStack event-dispatch core.

This file gives a shallow embedding of the parts of the repository that the
checked properties are about:

* `necrostack/core/event.py` — the `Event` value type with its pydantic
  field validators (`validate_id`, `validate_event_type`, `validate_payload`)
  and the `MAX_PAYLOAD_SIZE` limit;
* `necrostack/core/spine.py` — the `Spine` dispatcher: handler invocation
  and return-type validation, the enqueue-failure policies (FAIL / RETRY /
  STORE), the handler-failure policies (LOG / STORE / NACK), the circuit
  breaker, the statistics record and the in-memory failed-event store;
* `necrostack/backends/redis_backend.py` — the serialization wire format
  (`enqueue` / `_deserialize`) and the `ack` operation over the internal
  event-id to stream-message-id mapping.

Python values that can appear in an event payload are modelled by the
inductive type `PyVal`; `json.dumps` (with its default `ensure_ascii=True`
escaping) is modelled by `dumpsL`, and the UTF-8 byte length measured by
`validate_payload` by `byteLenL`.  The dispatcher's `run` loop is modelled
as a fuel-indexed interpreter `runLoop` over an abstract backend given as a
state machine, with a ghost trace recording backend operations, sleeps and
dispatch log lines so that ordering properties can be stated.
-/

/-- A Python value that can be placed in an event payload.  `vTuple` is a
Python `tuple` (serialized by `json.dumps` exactly like a `list`, but a
distinct value for structural equality); `vObj` stands for any object that
`json.dumps` cannot serialize (it raises `TypeError`). -/
inductive PyVal where
  | vNone : PyVal
  | vBool : Bool → PyVal
  | vInt : Int → PyVal
  | vStr : String → PyVal
  | vList : List PyVal → PyVal
  | vTuple : List PyVal → PyVal
  | vDict : List (String × PyVal) → PyVal
  | vObj : String → PyVal
deriving Repr

/-- Lower-case hex digit, as produced by Python's `\uXXXX` escapes. -/
def hexDigit (n : Nat) : Char :=
  if n < 10 then Char.ofNat (48 + n) else Char.ofNat (87 + n)

/-- Four lower-case hex digits. -/
def hex4 (n : Nat) : List Char :=
  [hexDigit (n / 4096 % 16), hexDigit (n / 256 % 16), hexDigit (n / 16 % 16), hexDigit (n % 16)]

/-- The escape of one character in a JSON string literal produced by
`json.dumps` with its default `ensure_ascii=True`: the two-character escapes
for quote, backslash and the common control characters, `\uXXXX` for the
remaining control characters and all non-ASCII characters, and a surrogate
pair for characters beyond the basic multilingual plane. -/
def escapeChar (c : Char) : List Char :=
  if c = '"' then ['\\', '"']
  else if c = '\\' then ['\\', '\\']
  else if c = '\n' then ['\\', 'n']
  else if c = '\r' then ['\\', 'r']
  else if c = '\t' then ['\\', 't']
  else if c.toNat = 8 then ['\\', 'b']
  else if c.toNat = 12 then ['\\', 'f']
  else if c.toNat < 32 then '\\' :: 'u' :: hex4 c.toNat
  else if c.toNat ≤ 126 then [c]
  else if c.toNat < 65536 then '\\' :: 'u' :: hex4 c.toNat
  else
    let v := c.toNat - 65536
    '\\' :: 'u' :: hex4 (55296 + v / 1024) ++ '\\' :: 'u' :: hex4 (56320 + v % 1024)

/-- Escape every character of a string body. -/
def escapeList (cs : List Char) : List Char :=
  (cs.map escapeChar).flatten

/-- A JSON string literal: quote, escaped body, quote. -/
def quoteChars (s : String) : List Char :=
  '"' :: escapeList s.data ++ ['"']

/-- Join rendered items with `json.dumps`' default item separator `", "`. -/
def joinComma : List (List Char) → List Char
  | [] => []
  | [p] => p
  | p :: ps => p ++ ',' :: ' ' :: joinComma ps

mutual
/-- The text produced by `json.dumps` for a payload value, as a character
list; `none` when the value is not JSON-serializable (Python raises
`TypeError`).  Uses the default separators `", "` and `": "` and the default
`ensure_ascii=True` escaping, so the output is pure ASCII. -/
def dumpsL : PyVal → Option (List Char)
  | .vNone => some ['n', 'u', 'l', 'l']
  | .vBool true => some ['t', 'r', 'u', 'e']
  | .vBool false => some ['f', 'a', 'l', 's', 'e']
  | .vInt n => some (toString n).data
  | .vStr s => some (quoteChars s)
  | .vList xs => (dumpsItems xs).map fun ps => '[' :: joinComma ps ++ [']']
  | .vTuple xs => (dumpsItems xs).map fun ps => '[' :: joinComma ps ++ [']']
  | .vDict kvs => (dumpsPairs kvs).map fun ps => '\x7b' :: joinComma ps ++ ['\x7d']
  | .vObj _ => none

/-- Render the items of a JSON array. -/
def dumpsItems : List PyVal → Option (List (List Char))
  | [] => some []
  | v :: vs => do
    let c ← dumpsL v
    let cs ← dumpsItems vs
    pure (c :: cs)

/-- Render the `"key": value` members of a JSON object. -/
def dumpsPairs : List (String × PyVal) → Option (List (List Char))
  | [] => some []
  | (k, v) :: kvs => do
    let c ← dumpsL v
    let cs ← dumpsPairs kvs
    pure ((quoteChars k ++ ':' :: ' ' :: c) :: cs)
end

/-- UTF-8 byte length of a character list: the model of
`len(serialized.encode("utf-8"))` in `validate_payload`. -/
def byteLenL (cs : List Char) : Nat :=
  (cs.map Char.utf8Size).sum

/-- `MAX_PAYLOAD_SIZE = 1_000_000` from `necrostack/core/event.py`
(the source comment calls it "1MB"). -/
def MAX_PAYLOAD_SIZE : Nat := 1000000

/-- Whether `json.dumps` accepts the payload dictionary. -/
def serializable (p : List (String × PyVal)) : Bool :=
  (dumpsL (.vDict p)).isSome

/-- The serialized UTF-8 byte length of a payload dictionary (zero when the
payload is not serializable; only used under `serializable`). -/
def payloadByteLen (p : List (String × PyVal)) : Nat :=
  match dumpsL (.vDict p) with
  | some cs => byteLenL cs
  | none => 0

/-- The size-limit error message raised by `validate_payload`. -/
def payloadSizeErrMsg (byte_length : Nat) : String :=
  "payload exceeds maximum size of " ++ toString MAX_PAYLOAD_SIZE ++
    " bytes (got " ++ toString byte_length ++ " bytes)"

/-- `Event.validate_payload`: serialize with `json.dumps` (raising a
`ValueError` for non-serializable payloads), measure the UTF-8 byte length,
and reject payloads strictly larger than `MAX_PAYLOAD_SIZE`. -/
def validatePayload (p : List (String × PyVal)) :
    Except String (List (String × PyVal)) :=
  match dumpsL (.vDict p) with
  | none => .error "payload must be JSON-serializable"
  | some cs =>
    let byte_length := byteLenL cs
    if MAX_PAYLOAD_SIZE < byte_length then .error (payloadSizeErrMsg byte_length)
    else .ok p

/-- Hexadecimal character class of the UUID regex (`[0-9a-f]` under
`re.IGNORECASE`). -/
def isHexChar (c : Char) : Bool :=
  c.isDigit || ('a' ≤ c && c ≤ 'f') || ('A' ≤ c && c ≤ 'F')

/-- Consume exactly `n` hex characters. -/
def hexRun : Nat → List Char → Option (List Char)
  | 0, cs => some cs
  | n + 1, c :: cs => if isHexChar c then hexRun n cs else none
  | _ + 1, [] => none

/-- Consume one expected character. -/
def expectCh (c : Char) : List Char → Option (List Char)
  | d :: cs => if d = c then some cs else none
  | [] => none

/-- The UUID version-4 pattern of `event.py`
(`[0-9a-f]{8}-[0-9a-f]{4}-4[0-9a-f]{3}-[89ab][0-9a-f]{3}-[0-9a-f]{12}`,
case-insensitive, anchored at both ends). -/
def isUuid4 (s : String) : Bool :=
  (do
    let cs := s.data
    let cs ← hexRun 8 cs
    let cs ← expectCh '-' cs
    let cs ← hexRun 4 cs
    let cs ← expectCh '-' cs
    let cs ← expectCh '4' cs
    let cs ← hexRun 3 cs
    let cs ← expectCh '-' cs
    let cs ← match cs with
      | c :: rest =>
        if c = '8' || c = '9' || c = 'a' || c = 'b' || c = 'A' || c = 'B'
        then some rest else none
      | [] => none
    let cs ← hexRun 3 cs
    let cs ← expectCh '-' cs
    let cs ← hexRun 12 cs
    if cs.isEmpty then some () else none).isSome

/-- Python's `str.lower()`, character by character. -/
def pyLower (s : String) : String := ⟨s.data.map Char.toLower⟩

/-- Python's `str.strip()`: drop whitespace from both ends. -/
def pyStrip (s : String) : String :=
  ⟨((s.data.dropWhile Char.isWhitespace).reverse.dropWhile Char.isWhitespace).reverse⟩

/-- `Event.validate_id`: reject strings that do not match the UUID v4
pattern, normalize accepted ids to lower case. -/
def validateId (v : String) : Except String String :=
  if isUuid4 v then .ok (pyLower v)
  else .error ("id must be a valid UUID v4 string, got: " ++ v)

/-- `Event.validate_event_type`: strip surrounding whitespace and reject the
empty result. -/
def validateEventType (v : String) : Except String String :=
  let t := pyStrip v
  if t = "" then .error "event_type must not be empty" else .ok t

/-- A UTC instant at `datetime` precision: the model of an aware
`datetime.datetime` with `tzinfo=UTC` (the only timestamps the system
creates: `datetime.now(UTC)` at construction, `fromisoformat` of an
isoformat of such a value at deserialization). -/
structure Timestamp where
  year : Nat
  month : Nat
  day : Nat
  hour : Nat
  minute : Nat
  second : Nat
  microsecond : Nat
deriving DecidableEq, Repr

/-- The range invariants `datetime` enforces on its fields (the day bound is
the coarse one; exact month lengths are irrelevant to round-tripping). -/
def Timestamp.Valid (t : Timestamp) : Prop :=
  1 ≤ t.year ∧ t.year ≤ 9999 ∧ 1 ≤ t.month ∧ t.month ≤ 12 ∧
    1 ≤ t.day ∧ t.day ≤ 31 ∧ t.hour ≤ 23 ∧ t.minute ≤ 59 ∧
    t.second ≤ 59 ∧ t.microsecond ≤ 999999

instance (t : Timestamp) : Decidable t.Valid := by
  unfold Timestamp.Valid; infer_instance

/-- Zero-padded fixed-width decimal digits, most significant first. -/
def padDigits : Nat → Nat → List Char
  | 0, _ => []
  | w + 1, n => Char.ofNat (48 + n / 10 ^ w) :: padDigits w (n % 10 ^ w)

/-- Fixed-width decimal as a string. -/
def pad (w n : Nat) : String := ⟨padDigits w n⟩

/-- `datetime.isoformat()` of an aware UTC instant:
`YYYY-MM-DDTHH:MM:SS[.ffffff]+00:00`, the fractional part omitted when the
microsecond field is zero. -/
def Timestamp.isoformat (t : Timestamp) : String :=
  pad 4 t.year ++ "-" ++ pad 2 t.month ++ "-" ++ pad 2 t.day ++ "T" ++
    pad 2 t.hour ++ ":" ++ pad 2 t.minute ++ ":" ++ pad 2 t.second ++
    (if t.microsecond = 0 then "" else "." ++ pad 6 t.microsecond) ++ "+00:00"

/-- Read exactly `w` decimal digits, accumulating their value. -/
def readFixedNat : Nat → Nat → List Char → Option (Nat × List Char)
  | 0, acc, cs => some (acc, cs)
  | w + 1, acc, c :: cs =>
    if c.isDigit then readFixedNat w (acc * 10 + (c.toNat - 48)) cs else none
  | _ + 1, _, [] => none

/-- The optional fractional-seconds part: a dot followed by six digits, or
nothing (microsecond zero). -/
def parseFraction : List Char → Option (Nat × List Char)
  | '.' :: rest => readFixedNat 6 0 rest
  | cs => some (0, cs)

/-- Core of `datetime.fromisoformat` on the strings produced by
`Timestamp.isoformat`: fixed-position date and time fields, an optional
six-digit fractional part, and the `+00:00` UTC offset. -/
def parseIsoCore (cs : List Char) : Option Timestamp := do
  let (y, cs) ← readFixedNat 4 0 cs
  let cs ← expectCh '-' cs
  let (mo, cs) ← readFixedNat 2 0 cs
  let cs ← expectCh '-' cs
  let (d, cs) ← readFixedNat 2 0 cs
  let cs ← expectCh 'T' cs
  let (h, cs) ← readFixedNat 2 0 cs
  let cs ← expectCh ':' cs
  let (mi, cs) ← readFixedNat 2 0 cs
  let cs ← expectCh ':' cs
  let (s, cs) ← readFixedNat 2 0 cs
  let (us, cs) ← parseFraction cs
  if cs = ['+', '0', '0', ':', '0', '0'] then
    some ⟨y, mo, d, h, mi, s, us⟩
  else none

/-- `datetime.fromisoformat` as used by `RedisBackend._deserialize`. -/
def fromisoformat (s : String) : Option Timestamp :=
  parseIsoCore s.data

/-- The `Event` record of `necrostack/core/event.py`: id, UTC timestamp,
event type and payload dictionary (modelled as an ordered association list,
matching Python dict insertion order). -/
structure Event where
  id : String
  timestamp : Timestamp
  event_type : String
  payload : List (String × PyVal)
deriving Repr

/-- Tag a validator failure with its pydantic field name. -/
def errsOf (field : String) : Except String α → List (String × String)
  | .error m => [(field, m)]
  | .ok _ => []

/-- `Event(...)` construction: run the field validators, collect
`(field, message)` errors in field order as pydantic's `ValidationError`
does, and build the frozen record on success.  The `timestamp` field has no
validator. -/
def mkEvent (id : String) (ts : Timestamp) (event_type : String)
    (payload : List (String × PyVal)) : Except (List (String × String)) Event :=
  match validateId id, validateEventType event_type, validatePayload payload with
  | .ok i, .ok t, .ok p => .ok { id := i, timestamp := ts, event_type := t, payload := p }
  | ri, rt, rp => .error (errsOf "id" ri ++ errsOf "event_type" rt ++ errsOf "payload" rp)

/-- A JSON document, the value-level image of `json.dumps` output (what
`json.loads` reconstructs from the wire text). -/
inductive Json where
  | jnull : Json
  | jbool : Bool → Json
  | jint : Int → Json
  | jstr : String → Json
  | jarr : List Json → Json
  | jobj : List (String × Json) → Json
deriving Repr

mutual
/-- The JSON document denoted by the `json.dumps` serialization of a Python
value: tuples and lists both become arrays; non-serializable objects yield
`none` (a raised `TypeError`). -/
def PyVal.toJson : PyVal → Option Json
  | .vNone => some .jnull
  | .vBool b => some (.jbool b)
  | .vInt n => some (.jint n)
  | .vStr s => some (.jstr s)
  | .vList xs => (PyVal.toJsonItems xs).map .jarr
  | .vTuple xs => (PyVal.toJsonItems xs).map .jarr
  | .vDict kvs => (PyVal.toJsonPairs kvs).map .jobj
  | .vObj _ => none

/-- Arrays, item by item. -/
def PyVal.toJsonItems : List PyVal → Option (List Json)
  | [] => some []
  | v :: vs => do pure ((← PyVal.toJson v) :: (← PyVal.toJsonItems vs))

/-- Object members, pair by pair. -/
def PyVal.toJsonPairs : List (String × PyVal) → Option (List (String × Json))
  | [] => some []
  | (k, v) :: kvs => do pure ((k, ← PyVal.toJson v) :: (← PyVal.toJsonPairs kvs))
end

mutual
/-- The Python value `json.loads` builds from a JSON document: arrays become
lists, objects become (insertion-ordered) dicts. -/
def Json.toPy : Json → PyVal
  | .jnull => .vNone
  | .jbool b => .vBool b
  | .jint n => .vInt n
  | .jstr s => .vStr s
  | .jarr xs => .vList (Json.toPyItems xs)
  | .jobj kvs => .vDict (Json.toPyPairs kvs)

/-- Array items. -/
def Json.toPyItems : List Json → List PyVal
  | [] => []
  | x :: xs => Json.toPy x :: Json.toPyItems xs

/-- Object members. -/
def Json.toPyPairs : List (String × Json) → List (String × PyVal)
  | [] => []
  | (k, v) :: kvs => (k, Json.toPy v) :: Json.toPyPairs kvs
end

mutual
/-- A payload value already in canonical JSON form: built without tuples and
without non-serializable objects, so `json.loads` of its `json.dumps` text
reproduces it exactly. -/
def PyVal.canonical : PyVal → Bool
  | .vNone => true
  | .vBool _ => true
  | .vInt _ => true
  | .vStr _ => true
  | .vList xs => PyVal.canonicalItems xs
  | .vTuple _ => false
  | .vDict kvs => PyVal.canonicalPairs kvs
  | .vObj _ => false

/-- Canonicity of every list item. -/
def PyVal.canonicalItems : List PyVal → Bool
  | [] => true
  | v :: vs => PyVal.canonical v && PyVal.canonicalItems vs

/-- Canonicity of every dict value. -/
def PyVal.canonicalPairs : List (String × PyVal) → Bool
  | [] => true
  | (_, v) :: kvs => PyVal.canonical v && PyVal.canonicalPairs kvs
end

/-- `RedisBackend.enqueue`'s wire serialization of an event as a JSON
document: `data = event.model_dump()`, the timestamp replaced by its ISO-8601
form, then `json.dumps(data)`.  `none` when the payload fails to serialize
(it cannot for constructed events, whose payloads passed
`validate_payload`). -/
def serializeEvent (e : Event) : Option Json :=
  (PyVal.toJson (.vDict e.payload)).map fun pj =>
    .jobj [("id", .jstr e.id), ("timestamp", .jstr e.timestamp.isoformat),
           ("event_type", .jstr e.event_type), ("payload", pj)]

/-- First member of a JSON object with the given key. -/
def lookupJ (kvs : List (String × Json)) (k : String) : Option Json :=
  match kvs with
  | [] => none
  | (k', v) :: rest => if k' = k then some v else lookupJ rest k

/-- `RedisBackend._deserialize` on a parsed wire document: read the four
fields, convert the timestamp with `datetime.fromisoformat`, and rebuild the
event through `Event(**event_dict)` (which reruns the validators and rejects
unknown or missing fields); any failure is caught and yields `None`. -/
def deserializeEvent (j : Json) : Option Event :=
  match j with
  | .jobj kvs =>
    match lookupJ kvs "id", lookupJ kvs "timestamp",
        lookupJ kvs "event_type", lookupJ kvs "payload" with
    | some (.jstr i), some (.jstr tss), some (.jstr et), some (.jobj pkvs) =>
      if kvs.length = 4 then
        match fromisoformat tss with
        | some ts =>
          match mkEvent i ts et (Json.toPyPairs pkvs) with
          | .ok e => some e
          | .error _ => none
        | none => none
      else none
    | _, _, _, _ => none
  | _ => none

/-- `EnqueueFailureMode` from `spine.py`. -/
inductive EnqueueFailureMode where
  | fail : EnqueueFailureMode
  | retry : EnqueueFailureMode
  | store : EnqueueFailureMode
deriving DecidableEq, Repr

/-- `HandlerFailureMode` from `spine.py`. -/
inductive HandlerFailureMode where
  | log : HandlerFailureMode
  | store : HandlerFailureMode
  | nack : HandlerFailureMode
deriving DecidableEq, Repr

/-- An element of a list returned by a handler: either an `Event` or some
other Python object (carrying its type name for the error message). -/
inductive RetItem where
  | ev : Event → RetItem
  | nonEvent : String → RetItem

/-- The value a handler's `handle` call produces once any returned coroutine
has been awaited: `None`, a single event, a `list`, a `tuple` of events, or
an object of some other type. -/
inductive HandlerRet where
  | retNone : HandlerRet
  | retEvent : Event → HandlerRet
  | retList : List RetItem → HandlerRet
  | retTuple : List Event → HandlerRet
  | retOther : String → HandlerRet

/-- The observable outcome of calling (and, for coroutines, awaiting)
`organ.handle(event)`: a returned value, a raised exception, or an
`asyncio.wait_for` timeout. -/
inductive HandlerOutcome where
  | returns : HandlerRet → HandlerOutcome
  | raises : String → HandlerOutcome
  | timesOut : HandlerOutcome

/-- An organ: name, subscription list, and handler behaviour. -/
structure Organ where
  name : String
  listens_to : List String
  handle : Event → HandlerOutcome

/-- An error propagating out of `Spine._invoke_handler`: the synthetic
timeout error, the return-type `TypeError`s, or the handler's own
exception. -/
inductive InvokeErr where
  | timeout : String → InvokeErr
  | typeError : String → InvokeErr
  | raised : String → InvokeErr

/-- The `str(e)` form recorded in logs and in `handler_error`. -/
def InvokeErr.msg : InvokeErr → String
  | .timeout m => m
  | .typeError m => m
  | .raised m => m

/-- A validated handler return value (`None`, one event, or a list). -/
inductive Emitted where
  | nothing : Emitted
  | one : Event → Emitted
  | many : List Event → Emitted

/-- The element check of `_invoke_handler` for list returns: raise a
`TypeError` at the first non-`Event` element, reported with its index. -/
def checkListItems (organName : String) : Nat → List RetItem →
    Except InvokeErr (List Event)
  | _, [] => .ok []
  | i, .ev e :: rest => (checkListItems organName (i + 1) rest).map (e :: ·)
  | i, .nonEvent ty :: _ =>
    .error (.typeError ("Handler " ++ organName ++
      " returned list with non-Event at index " ++ toString i ++ ": got " ++ ty))

/-- `Spine._invoke_handler`: await the handler under the timeout, then
validate the return type — `None`, an `Event`, or a `list` whose every
element is an `Event`; anything else (including a tuple) raises a
`TypeError`. -/
def invokeHandler (organ : Organ) (event : Event) : Except InvokeErr Emitted :=
  match organ.handle event with
  | .raises m => .error (.raised m)
  | .timesOut => .error (.timeout ("Handler " ++ organ.name ++ " timed out"))
  | .returns r =>
    match r with
    | .retNone => .ok .nothing
    | .retEvent e => .ok (.one e)
    | .retList items => (checkListItems organ.name 0 items).map .many
    | .retTuple _ =>
      .error (.typeError ("Handler " ++ organ.name ++
        " must return Event, list[Event], or None, got tuple"))
    | .retOther ty =>
      .error (.typeError ("Handler " ++ organ.name ++
        " must return Event, list[Event], or None, got " ++ ty))

/-- The normalization in `run`:
`events_to_enqueue = [emitted] if isinstance(emitted, Event) else emitted`. -/
def Emitted.toEnqueue : Emitted → List Event
  | .nothing => []
  | .one e => [e]
  | .many es => es

/-- `SpineStats`; the two per-key tallies are total functions defaulting to
zero, the model of `defaultdict(int)`. -/
structure SpineStats where
  events_processed : Nat
  events_emitted : Nat
  enqueue_failures : String → Nat
  handler_errors : String → Nat
  backend_errors : Nat
  ack_errors : Nat

/-- Fresh statistics, as at the top of `run`. -/
def SpineStats.init : SpineStats :=
  { events_processed := 0, events_emitted := 0, enqueue_failures := fun _ => 0,
    handler_errors := fun _ => 0, backend_errors := 0, ack_errors := 0 }

/-- `d[k] += 1` on a `defaultdict(int)`. -/
def bump (f : String → Nat) (k : String) : String → Nat :=
  fun x => if x = k then f x + 1 else f x

/-- `InMemoryFailedEventStore`: bounded list of `(event, error)` pairs with
FIFO eviction and a dropped counter. -/
structure FailedEventStore where
  events : List (Event × String)
  max_size : Nat
  dropped_count : Nat

/-- `InMemoryFailedEventStore.store`: evict the oldest entry when full,
count the eviction, and append. -/
def FailedEventStore.store (d : FailedEventStore) (e : Event) (err : String) :
    FailedEventStore :=
  if d.max_size ≤ d.events.length then
    { events := d.events.drop 1 ++ [(e, err)], max_size := d.max_size,
      dropped_count := d.dropped_count + 1 }
  else
    { d with events := d.events ++ [(e, err)] }

/-- A backend as a state machine over backend-private state `σ`.  `enqueue`
and `ack` return `some message` when the underlying call raises with that
message; `pull` returns either a raised error or an optional event. -/
structure Backend (σ : Type) where
  enqueue : σ → Event → σ × Option String
  pull : σ → σ × Except String (Option Event)
  ack : σ → Event → σ × Option String

/-- Ghost trace entries: backend operations, retry sleeps (in seconds) and
the "Dispatching ... to ..." log line (organ name, event id). -/
inductive TraceOp where
  | pullOp : TraceOp
  | enqueueOp : Event → Bool → TraceOp
  | ackOp : Event → Bool → TraceOp
  | sleepOp : Rat → TraceOp
  | dispatchOp : String → String → TraceOp

/-- The spine's configuration parameters (those its loop reads). -/
structure SpineConfig where
  organs : List Organ
  max_steps : Nat
  enqueue_failure_mode : EnqueueFailureMode
  handler_failure_mode : HandlerFailureMode
  retry_attempts : Nat
  retry_base_delay : Rat
  max_consecutive_backend_failures : Nat

/-- The mutable state threaded through one `run` invocation. -/
structure LoopState (σ : Type) where
  backend : σ
  stats : SpineStats
  dlq : FailedEventStore
  consecutive_pull_failures : Nat
  last_backend_error : Option String
  trace : List TraceOp

/-- The state at the top of `run`: fresh statistics and a zeroed failure
counter over the given backend state and failed-event store. -/
def initState (b : σ) (dlq : FailedEventStore) : LoopState σ :=
  { backend := b, stats := SpineStats.init, dlq := dlq,
    consecutive_pull_failures := 0, last_backend_error := none, trace := [] }

/-- The retry loop of `_handle_enqueue_failure` in RETRY mode:
`for attempt in range(retry_attempts)`, sleeping
`retry_base_delay * 2 ** attempt` before each re-enqueue; a success returns
normally, exhaustion raises `EnqueueError(last_error)` with the most recent
error. -/
def retryEnqueue (B : Backend σ) (base : Rat) (event : Event) :
    Nat → Nat → String → LoopState σ → LoopState σ × Except String Unit
  | _, 0, last, st => (st, .error last)
  | attempt, rem + 1, _last, st =>
    let delay := base * 2 ^ attempt
    let st := { st with trace := st.trace ++ [TraceOp.sleepOp delay] }
    let (b', r) := B.enqueue st.backend event
    let st := { st with
      backend := b'
      trace := st.trace ++ [TraceOp.enqueueOp event r.isNone] }
    match r with
    | none => (st, .ok ())
    | some e => retryEnqueue B base event (attempt + 1) rem e st

/-- `Spine._handle_enqueue_failure`: count the failure under the event type,
then apply the configured mode — FAIL raises `EnqueueError(error)`, RETRY
runs the backoff loop, STORE records the event in the failed-event store and
continues.  The `Except.error` carries the message retained inside the
raised `EnqueueError`. -/
def handleEnqueueFailure (B : Backend σ) (cfg : SpineConfig) (event : Event)
    (error : String) (st : LoopState σ) : LoopState σ × Except String Unit :=
  let st := { st with stats := { st.stats with
    enqueue_failures := bump st.stats.enqueue_failures event.event_type } }
  match cfg.enqueue_failure_mode with
  | .fail => (st, .error error)
  | .retry => retryEnqueue B cfg.retry_base_delay event 0 cfg.retry_attempts error st
  | .store => ({ st with dlq := st.dlq.store event error }, .ok ())

/-- The inner `for new_event in events_to_enqueue` loop of `run`: enqueue
each emitted event, counting successes in `events_emitted` and handing
failures to `_handle_enqueue_failure`; a raised `EnqueueError` aborts the
loop and propagates. -/
def enqueueEmitted (B : Backend σ) (cfg : SpineConfig) :
    List Event → LoopState σ → LoopState σ × Except String Unit
  | [], st => (st, .ok ())
  | e :: rest, st =>
    let (b', r) := B.enqueue st.backend e
    let st := { st with
      backend := b'
      trace := st.trace ++ [TraceOp.enqueueOp e r.isNone] }
    match r with
    | none =>
      let st := { st with stats := { st.stats with
        events_emitted := st.stats.events_emitted + 1 } }
      enqueueEmitted B cfg rest st
    | some err =>
      match handleEnqueueFailure B cfg e err st with
      | (st, .error m) => (st, .error m)
      | (st, .ok ()) => enqueueEmitted B cfg rest st

/-- The `for organ in self.organs` loop of `run` for one dispatched event:
skip organs whose `listens_to` does not contain the event type, log the
dispatch, invoke the handler, enqueue what it emitted; a raised
`EnqueueError` propagates, any other error marks the event failed and
increments the organ's `handler_errors` tally.  Returns the
`(handler_failed, handler_error)` pair. -/
def dispatchOrgans (B : Backend σ) (cfg : SpineConfig) (event : Event) :
    List Organ → Bool → Option String → LoopState σ →
    LoopState σ × Except String (Bool × Option String)
  | [], failed, err, st => (st, .ok (failed, err))
  | o :: rest, failed, err, st =>
    if event.event_type ∈ o.listens_to then
      let st := { st with trace := st.trace ++ [TraceOp.dispatchOp o.name event.id] }
      match invokeHandler o event with
      | .ok emitted =>
        match enqueueEmitted B cfg emitted.toEnqueue st with
        | (st, .error m) => (st, .error m)
        | (st, .ok ()) => dispatchOrgans B cfg event rest failed err st
      | .error ie =>
        let st := { st with stats := { st.stats with
          handler_errors := bump st.stats.handler_errors o.name } }
        dispatchOrgans B cfg event rest true (some ie.msg) st
    else
      dispatchOrgans B cfg event rest failed err st

/-- One `backend.ack(event)` call with its error handling: a raised ack
error is swallowed, incrementing `ack_errors`. -/
def doAck (B : Backend σ) (event : Event) (st : LoopState σ) : LoopState σ :=
  let (b', r) := B.ack st.backend event
  let st := { st with backend := b', trace := st.trace ++ [TraceOp.ackOp event r.isNone] }
  match r with
  | none => st
  | some _ => { st with stats := { st.stats with
      ack_errors := st.stats.ack_errors + 1 } }

/-- The acknowledgment resolution at the bottom of the loop body: on
failure, STORE records the event in the failed-event store and acks, NACK
leaves the event pending, LOG acks; with no failure the event is acked. -/
def resolveAck (B : Backend σ) (cfg : SpineConfig) (event : Event)
    (failed : Bool) (err : Option String) (st : LoopState σ) : LoopState σ :=
  if failed then
    match cfg.handler_failure_mode with
    | .store => doAck B event { st with dlq := st.dlq.store event (err.getD "") }
    | .nack => st
    | .log => doAck B event st
  else doAck B event st

/-- The result of one iteration of the `while self._running` loop. -/
inductive IterResult (σ : Type) where
  | maxSteps : LoopState σ → IterResult σ
  | unavailable : Nat → Option String → LoopState σ → IterResult σ
  | enqueueFailed : String → LoopState σ → IterResult σ
  | next : LoopState σ → IterResult σ

/-- The state right after `backend.pull` returned: the new backend state is
committed and the pull is recorded in the trace. -/
def afterPull (st : LoopState σ) (b' : σ) : LoopState σ :=
  { st with backend := b', trace := st.trace ++ [TraceOp.pullOp] }

/-- The state at the top of the processing of one pulled event: the
consecutive-failure counter is reset, the recorded backend error cleared,
and `events_processed` incremented. -/
def startProcessing (st : LoopState σ) : LoopState σ :=
  { st with
    consecutive_pull_failures := 0
    last_backend_error := none
    stats := { st.stats with
      events_processed := st.stats.events_processed + 1 } }

/-- One iteration of `Spine.run`'s loop: the max-steps guard, the circuit
breaker, one `pull` (whose success resets the consecutive-failure counter
and clears the recorded error, and whose failure increments both the counter
and `backend_errors`), then dispatch and acknowledgment for a pulled
event. -/
def loopIter (B : Backend σ) (cfg : SpineConfig) (st : LoopState σ) : IterResult σ :=
  if cfg.max_steps ≤ st.stats.events_processed then .maxSteps st
  else if cfg.max_consecutive_backend_failures ≤ st.consecutive_pull_failures then
    .unavailable st.consecutive_pull_failures st.last_backend_error st
  else
    match B.pull st.backend with
    | (b', .error msg) =>
      .next { afterPull st b' with
        consecutive_pull_failures := st.consecutive_pull_failures + 1
        stats := { st.stats with backend_errors := st.stats.backend_errors + 1 }
        last_backend_error := some msg }
    | (b', .ok none) =>
      .next { afterPull st b' with
        consecutive_pull_failures := 0
        last_backend_error := none }
    | (b', .ok (some event)) =>
      match dispatchOrgans B cfg event cfg.organs false none
          (startProcessing (afterPull st b')) with
      | (st, .error m) => .enqueueFailed m st
      | (st, .ok (failed, err)) => .next (resolveAck B cfg event failed err st)

/-- A terminated (or fuel-exhausted) run. -/
inductive RunResult (σ : Type) where
  | outOfFuel : LoopState σ → RunResult σ
  | maxSteps : LoopState σ → RunResult σ
  | unavailable : Nat → Option String → LoopState σ → RunResult σ
  | enqueueFailed : String → LoopState σ → RunResult σ

/-- The `while self._running` loop, fuel-indexed (the flag is only cleared
by `stop()`, which none of the checked configurations call). -/
def runLoop (B : Backend σ) (cfg : SpineConfig) : Nat → LoopState σ → RunResult σ
  | 0, st => .outOfFuel st
  | fuel + 1, st =>
    match loopIter B cfg st with
    | .maxSteps st => .maxSteps st
    | .unavailable c l st => .unavailable c l st
    | .enqueueFailed m st => .enqueueFailed m st
    | .next st => runLoop B cfg fuel st

/-- The state carried by a run result. -/
def RunResult.finalState : RunResult σ → LoopState σ
  | .outOfFuel st => st
  | .maxSteps st => st
  | .unavailable _ _ st => st
  | .enqueueFailed _ st => st

/-- The `failure_count` of a raised `BackendUnavailableError`, when the run
ended that way. -/
def RunResult.unavailCount : RunResult σ → Option Nat
  | .unavailable c _ _ => some c
  | _ => none

/-- The `last_error` of a raised `BackendUnavailableError`. -/
def RunResult.unavailLastError : RunResult σ → Option (Option String)
  | .unavailable _ l _ => some l
  | _ => none

/-- Whether the run raised `BackendUnavailableError`. -/
def RunResult.isUnavailable : RunResult σ → Bool
  | .unavailable _ _ _ => true
  | _ => false

/-- Whether the run raised the "Max steps exceeded" `RuntimeError`. -/
def RunResult.isMaxSteps : RunResult σ → Bool
  | .maxSteps _ => true
  | _ => false

/-- The sleeps recorded in a trace, in order. -/
def sleepsOf (t : List TraceOp) : List Rat :=
  t.filterMap fun op => match op with | .sleepOp d => some d | _ => none

/-- The organ names of the dispatch log lines in a trace, in order. -/
def dispatchedNames (t : List TraceOp) : List String :=
  t.filterMap fun op => match op with | .dispatchOp n _ => some n | _ => none

/-- The events acked in a trace, in order. -/
def ackedEvents (t : List TraceOp) : List Event :=
  t.filterMap fun op => match op with | .ackOp e _ => some e | _ => none

/-- The state of `RedisBackend` read and written by `ack`: the
`event.id → stream-message-id` mapping (`_event_message_map`), the
`events_acked` metric, and a ghost list of the message ids passed to
`XACK`. -/
structure AckState where
  mapping : List (String × String)
  events_acked : Nat
  xackCalls : List String

/-- `dict.get` on the mapping. -/
def lookupMap (m : List (String × String)) (k : String) : Option String :=
  match m with
  | [] => none
  | (k', v) :: rest => if k' = k then some v else lookupMap rest k

/-- `dict.pop(k, None)`: drop the entry for `k`. -/
def removeKey (m : List (String × String)) (k : String) : List (String × String) :=
  m.filter fun kv => ¬ kv.1 = k

/-- The environment of one `ack` call: whether `_get_client()` succeeds,
and whether the `XACK` command succeeds. -/
structure RedisEnv where
  getClient : Except String Unit
  xack : Except String Unit

/-- How one `RedisBackend.ack(event)` call ends. -/
inductive AckResult where
  | warnedNoOp : AckResult
  | acked : AckResult
  | raisedGetClient : String → AckResult
  | raisedXack : String → AckResult
deriving DecidableEq, Repr

/-- `RedisBackend.ack`: read the message id for `event.id` (a missing or
falsy id warns and returns); obtain the client (`_get_client` may raise,
before the `try`/`finally` around `XACK`); call `XACK`, counting a success
in `events_acked` and re-raising a failure; the `finally` block pops the
mapping entry whenever the `try` was entered. -/
def RedisBackend.ackModel (env : RedisEnv) (eventId : String) (st : AckState) :
    AckState × AckResult :=
  match lookupMap st.mapping eventId with
  | none => (st, .warnedNoOp)
  | some message_id =>
    if message_id = "" then (st, .warnedNoOp)
    else
      match env.getClient with
      | .error m => (st, .raisedGetClient m)
      | .ok () =>
        match env.xack with
        | .ok () =>
          ({ mapping := removeKey st.mapping eventId
             events_acked := st.events_acked + 1
             xackCalls := st.xackCalls ++ [message_id] }, .acked)
        | .error m =>
          ({ st with
             mapping := removeKey st.mapping eventId
             xackCalls := st.xackCalls ++ [message_id] }, .raisedXack m)

/-! ### Shared concrete values used by witnesses and counterexamples -/

/-- A fixed valid version-4 UUID string (lower case). -/
def uuid0 : String := "00000000-0000-4000-8000-000000000000"

/-- A fixed valid UTC timestamp with a nonzero microsecond field. -/
def t0 : Timestamp := ⟨2024, 1, 2, 3, 4, 5, 6⟩

/-- A fixed valid UTC timestamp with a zero microsecond field. -/
def tz0 : Timestamp := ⟨2024, 1, 2, 3, 4, 5, 0⟩

/-- A run of `n` copies of the ASCII letter `x`. -/
def xChars (n : Nat) : List Char := List.replicate n 'x'

/-! ### Byte-length lemmas for `json.dumps` output -/

theorem byteLenL_append (a b : List Char) :
    byteLenL (a ++ b) = byteLenL a + byteLenL b := by
  simp [byteLenL]

theorem byteLenL_cons (c : Char) (rest : List Char) :
    byteLenL (c :: rest) = c.utf8Size + byteLenL rest := by
  simp [byteLenL]

theorem escapeList_xChars (n : Nat) : escapeList (xChars n) = xChars n := by
  induction n with
  | zero => rfl
  | succ n ih =>
    show escapeChar 'x' ++ escapeList (xChars n) = xChars (n + 1)
    rw [ih]
    rfl

theorem byteLenL_xChars (n : Nat) : byteLenL (xChars n) = n := by
  induction n with
  | zero => rfl
  | succ n ih =>
    have hx : ('x').utf8Size = 1 := rfl
    simp only [xChars, List.replicate_succ] at ih ⊢
    rw [byteLenL_cons, hx, ih]
    omega

theorem dumpsL_single_str (s : String) :
    dumpsL (.vDict [("a", .vStr s)]) =
      some ('\x7b' :: (quoteChars "a" ++ ':' :: ' ' :: quoteChars s) ++ ['\x7d']) := by
  rfl

theorem payloadByteLen_single_xStr (n : Nat) :
    payloadByteLen [("a", .vStr ⟨xChars n⟩)] = n + 9 := by
  have h := dumpsL_single_str ⟨xChars n⟩
  have hq : quoteChars ⟨xChars n⟩ = '"' :: escapeList (xChars n) ++ ['"'] := rfl
  have hQ : byteLenL (quoteChars "a") = 3 := by decide
  simp only [payloadByteLen, h, hq, escapeList_xChars]
  simp only [byteLenL_cons, byteLenL_append, byteLenL_xChars, hQ]
  have e1 : ('\x7b').utf8Size = 1 := rfl
  have e2 : ('\x7d').utf8Size = 1 := rfl
  have e3 : (':').utf8Size = 1 := rfl
  have e4 : (' ').utf8Size = 1 := rfl
  have e5 : ('"').utf8Size = 1 := rfl
  have e6 : byteLenL ([] : List Char) = 0 := rfl
  simp only [e1, e2, e3, e4, e5, e6]
  omega

theorem serializable_single_str (s : String) :
    serializable [("a", .vStr s)] = true := by
  simp [serializable, dumpsL_single_str]

theorem validatePayload_spec (p : List (String × PyVal))
    (hs : serializable p = true) :
    validatePayload p =
      if MAX_PAYLOAD_SIZE < payloadByteLen p then
        .error (payloadSizeErrMsg (payloadByteLen p))
      else .ok p := by
  unfold serializable at hs
  unfold validatePayload payloadByteLen
  cases hdump : dumpsL (.vDict p) with
  | none => rw [hdump] at hs; simp at hs
  | some cs => simp

theorem mkEvent_ok_of (id : String) (ts : Timestamp) (et : String)
    (p : List (String × PyVal))
    (hid : validateId id = .ok id) (het : validateEventType et = .ok et)
    (hp : validatePayload p = .ok p) :
    mkEvent id ts et p = .ok ⟨id, ts, et, p⟩ := by
  unfold mkEvent
  rw [hid, het, hp]

theorem mkEvent_payload_error_of (id : String) (ts : Timestamp) (et : String)
    (p : List (String × PyVal)) (msg : String)
    (hid : validateId id = .ok id) (het : validateEventType et = .ok et)
    (hp : validatePayload p = .error msg) :
    mkEvent id ts et p = .error [("payload", msg)] := by
  unfold mkEvent
  rw [hid, het, hp]
  simp [errsOf]

/-- Claim C1 (amended) — Event construction accepts any serializable payload
whose `json.dumps` UTF-8 byte length is at most 1,000,000 bytes
(`MAX_PAYLOAD_SIZE`), and rejects any payload above that bound with a
validation error naming the `payload` field; the bound is 1,000,000 bytes,
not the 1,048,576 (1 MiB) the claim states. -/
theorem c1_payload_size_bound (id : String) (ts : Timestamp) (et : String)
    (p : List (String × PyVal))
    (hid : validateId id = .ok id) (het : validateEventType et = .ok et)
    (hs : serializable p = true) :
    (payloadByteLen p ≤ MAX_PAYLOAD_SIZE →
      mkEvent id ts et p = .ok ⟨id, ts, et, p⟩) ∧
    (MAX_PAYLOAD_SIZE < payloadByteLen p →
      mkEvent id ts et p = .error [("payload", payloadSizeErrMsg (payloadByteLen p))]) := by
  have hvp := validatePayload_spec p hs
  constructor
  · intro hle
    exact mkEvent_ok_of id ts et p hid het (by rw [hvp, if_neg (by omega)])
  · intro hgt
    exact mkEvent_payload_error_of id ts et p _ hid het (by rw [hvp, if_pos hgt])

/-- Claim C1 witness: a small payload (11 serialized bytes) is accepted and
kept intact. -/
theorem c1_payload_size_bound_witness :
    mkEvent uuid0 t0 "t" [("a", PyVal.vStr "hi")] =
      .ok ⟨uuid0, t0, "t", [("a", PyVal.vStr "hi")]⟩ :=
  (c1_payload_size_bound uuid0 t0 "t" [("a", PyVal.vStr "hi")]
    (by rfl) (by rfl) (by rfl)).1 (by decide)

/-- Claim C1 counterexample — a payload of UTF-8 JSON byte length 1,000,009,
well below the claim's 1,048,576-byte threshold, is rejected by Event
construction with a validation error on the `payload` field: the code's
limit is `MAX_PAYLOAD_SIZE = 1_000_000`, not 1 MiB. -/
theorem c1_claim_false_at_1000009_bytes :
    mkEvent uuid0 t0 "t" [("a", .vStr ⟨xChars 1000000⟩)] =
      .error [("payload", payloadSizeErrMsg 1000009)] ∧
    payloadByteLen [("a", .vStr ⟨xChars 1000000⟩)] ≤ 1048576 := by
  have hb : payloadByteLen [("a", .vStr ⟨xChars 1000000⟩)] = 1000009 :=
    payloadByteLen_single_xStr 1000000
  have hs := serializable_single_str (⟨xChars 1000000⟩ : String)
  have hvp := validatePayload_spec _ hs
  rw [hb] at hvp
  have herr : validatePayload [("a", .vStr ⟨xChars 1000000⟩)] =
      .error (payloadSizeErrMsg 1000009) := by
    rw [hvp, if_pos (by norm_num [MAX_PAYLOAD_SIZE])]
  constructor
  · exact mkEvent_payload_error_of uuid0 t0 "t" _ _ (by rfl) (by rfl) herr
  · rw [hb]
    norm_num

/-! ### Scripted backends for exercising the dispatcher -/

/-- A backend whose `enqueue` outcomes follow the script `f` (the state
counts enqueue calls); `pull` always returns no event and `ack` succeeds. -/
def scriptEnqBackend (f : Nat → Option String) : Backend Nat :=
  { enqueue := fun s _ => (s + 1, f s)
    pull := fun s => (s, .ok none)
    ack := fun s _ => (s, none) }

/-- The exponential backoff schedule: the sleeps of `rem` retry attempts
starting at attempt index `attempt`. -/
def backoffs (base : Rat) : Nat → Nat → List Rat
  | _, 0 => []
  | attempt, rem + 1 => base * 2 ^ attempt :: backoffs base (attempt + 1) rem

theorem backoffs_eq_range (base : Rat) (a n : Nat) :
    backoffs base a n = (List.range n).map (fun k => base * 2 ^ (a + k)) := by
  induction n generalizing a with
  | zero => simp [backoffs]
  | succ n ih =>
    rw [backoffs, ih, List.range_succ_eq_map, List.map_cons, List.map_map]
    refine congrArg₂ _ (by rw [Nat.add_zero]) ?_
    apply List.map_congr_left
    intro k _
    have h : a + 1 + k = a + (k + 1) := by omega
    simp [Function.comp, h]

theorem sleepsOf_append (a b : List TraceOp) :
    sleepsOf (a ++ b) = sleepsOf a ++ sleepsOf b := by
  simp [sleepsOf]

theorem retryEnqueue_all_fail (f : Nat → Option String) (base : Rat) (ev : Event)
    (m : Nat → String) :
    ∀ (rem attempt c : Nat) (last : String) (st : LoopState Nat),
      st.backend = c →
      (∀ k, c ≤ k → k < c + rem → f k = some (m k)) →
      ∃ st',
        retryEnqueue (scriptEnqBackend f) base ev attempt rem last st =
          (st', .error (if rem = 0 then last else m (c + rem - 1))) ∧
        sleepsOf st'.trace = sleepsOf st.trace ++ backoffs base attempt rem ∧
        st'.backend = c + rem := by
  intro rem
  induction rem with
  | zero =>
    intro attempt c last st hb _
    exact ⟨st, by simp [retryEnqueue], by simp [backoffs], by omega⟩
  | succ rem ih =>
    intro attempt c last st hb hf
    have hfc : f c = some (m c) := hf c (by omega) (by omega)
    have hstep :
        retryEnqueue (scriptEnqBackend f) base ev attempt (rem + 1) last st =
          retryEnqueue (scriptEnqBackend f) base ev (attempt + 1) rem (m c)
            { st with
              backend := c + 1
              trace := (st.trace ++ [TraceOp.sleepOp (base * 2 ^ attempt)]) ++
                [TraceOp.enqueueOp ev (f c).isNone] } := by
      rw [retryEnqueue]
      simp only [scriptEnqBackend, hb, hfc]
    obtain ⟨st', h1, h2, h3⟩ := ih (attempt + 1) (c + 1) (m c)
      { st with
        backend := c + 1
        trace := (st.trace ++ [TraceOp.sleepOp (base * 2 ^ attempt)]) ++
          [TraceOp.enqueueOp ev (f c).isNone] }
      rfl (fun k hk1 hk2 => hf k (by omega) (by omega))
    refine ⟨st', ?_, ?_, by omega⟩
    · rw [hstep, h1]
      have harith : (if rem = 0 then m c else m (c + 1 + rem - 1)) =
          m (c + (rem + 1) - 1) := by
        rcases Nat.eq_zero_or_pos rem with h | h
        · subst h; simp
        · rw [if_neg (by omega)]
          congr 1
          omega
      rw [harith]
      simp
    · rw [h2]
      simp only [sleepsOf_append]
      simp [sleepsOf, backoffs]

theorem retryEnqueue_succeeds (f : Nat → Option String) (base : Rat) (ev : Event)
    (m : Nat → String) :
    ∀ (j rem attempt c : Nat) (last : String) (st : LoopState Nat),
      st.backend = c → j < rem →
      (∀ k, c ≤ k → k < c + j → f k = some (m k)) → f (c + j) = none →
      ∃ st',
        retryEnqueue (scriptEnqBackend f) base ev attempt rem last st =
          (st', .ok ()) ∧
        sleepsOf st'.trace = sleepsOf st.trace ++ backoffs base attempt (j + 1) := by
  intro j
  induction j with
  | zero =>
    intro rem attempt c last st hb hlt _ hnone
    obtain ⟨rem', rfl⟩ : ∃ rem', rem = rem' + 1 :=
      ⟨rem - 1, by omega⟩
    rw [Nat.add_zero] at hnone
    refine ⟨{ st with
      backend := c + 1
      trace := (st.trace ++ [TraceOp.sleepOp (base * 2 ^ attempt)]) ++
        [TraceOp.enqueueOp ev true] }, ?_, ?_⟩
    · rw [retryEnqueue]
      simp only [scriptEnqBackend, hb, hnone, Option.isNone_none]
    · simp [sleepsOf_append, sleepsOf, backoffs]
  | succ j ih =>
    intro rem attempt c last st hb hlt hf hnone
    obtain ⟨rem', rfl⟩ : ∃ rem', rem = rem' + 1 :=
      ⟨rem - 1, by omega⟩
    have hfc : f c = some (m c) := hf c (by omega) (by omega)
    have hstep :
        retryEnqueue (scriptEnqBackend f) base ev attempt (rem' + 1) last st =
          retryEnqueue (scriptEnqBackend f) base ev (attempt + 1) rem' (m c)
            { st with
              backend := c + 1
              trace := (st.trace ++ [TraceOp.sleepOp (base * 2 ^ attempt)]) ++
                [TraceOp.enqueueOp ev (f c).isNone] } := by
      rw [retryEnqueue]
      simp only [scriptEnqBackend, hb, hfc]
    obtain ⟨st', h1, h2⟩ := ih rem' (attempt + 1) (c + 1) (m c)
      { st with
        backend := c + 1
        trace := (st.trace ++ [TraceOp.sleepOp (base * 2 ^ attempt)]) ++
          [TraceOp.enqueueOp ev (f c).isNone] }
      rfl (by omega) (fun k hk1 hk2 => hf k (by omega) (by omega))
      (by have : c + 1 + j = c + (j + 1) := by omega
          rw [this]; exact hnone)
    refine ⟨st', by rw [hstep, h1], ?_⟩
    rw [h2]
    simp only [sleepsOf_append]
    simp [sleepsOf, backoffs]

theorem handleEnqueueFailure_retry_eq (cfg : SpineConfig)
    (hmode : cfg.enqueue_failure_mode = .retry) (B : Backend σ)
    (ev : Event) (err : String) (st : LoopState σ) :
    handleEnqueueFailure B cfg ev err st =
      retryEnqueue B cfg.retry_base_delay ev 0 cfg.retry_attempts err
        { st with stats := { st.stats with
            enqueue_failures := bump st.stats.enqueue_failures ev.event_type } } := by
  unfold handleEnqueueFailure
  rw [hmode]

/-- A concrete event used by witnesses (empty payload, type `A`). -/
def evW : Event := ⟨uuid0, tz0, "A", []⟩

/-- An empty failed-event store with the default bound of 10,000. -/
def dlq10k : FailedEventStore := ⟨[], 10000, 0⟩

/-- A RETRY-mode configuration with two retry attempts and base delay 1. -/
def cfgRetryW : SpineConfig :=
  { organs := [], max_steps := 10, enqueue_failure_mode := .retry,
    handler_failure_mode := .log, retry_attempts := 2, retry_base_delay := 1,
    max_consecutive_backend_failures := 10 }

/-- A RETRY-mode configuration with a single retry attempt. -/
def cfgRetry1 : SpineConfig :=
  { organs := [], max_steps := 10, enqueue_failure_mode := .retry,
    handler_failure_mode := .log, retry_attempts := 1, retry_base_delay := 1,
    max_consecutive_backend_failures := 10 }

/-- Claim C2 (amended) — under `enqueue_failure_mode = RETRY`, the spine
retries up to `retry_attempts` times, sleeping
`retry_base_delay * 2 ^ k` seconds before retry attempt `k`; a successful
retry returns normally; after all retries fail it raises an `EnqueueError`
whose retained cause is the error of the final failed retry attempt (the
last error) — this coincides with the original underlying error only when
`retry_attempts = 0`, not in general as the claim states. -/
theorem c2_retry_backoff_and_last_error (cfg : SpineConfig)
    (hmode : cfg.enqueue_failure_mode = .retry)
    (f : Nat → Option String) (m : Nat → String) (ev : Event) (err0 : String)
    (st : LoopState Nat) (hb : st.backend = 0) :
    ((∀ k, k < cfg.retry_attempts → f k = some (m k)) →
      ∃ st', handleEnqueueFailure (scriptEnqBackend f) cfg ev err0 st =
          (st', .error (if cfg.retry_attempts = 0 then err0
            else m (cfg.retry_attempts - 1))) ∧
        sleepsOf st'.trace = sleepsOf st.trace ++
          (List.range cfg.retry_attempts).map
            (fun k => cfg.retry_base_delay * 2 ^ k)) ∧
    (∀ j, j < cfg.retry_attempts →
      (∀ k, k < j → f k = some (m k)) → f j = none →
      ∃ st', handleEnqueueFailure (scriptEnqBackend f) cfg ev err0 st =
          (st', .ok ()) ∧
        sleepsOf st'.trace = sleepsOf st.trace ++
          (List.range (j + 1)).map (fun k => cfg.retry_base_delay * 2 ^ k)) := by
  have hrange : ∀ n, backoffs cfg.retry_base_delay 0 n =
      (List.range n).map (fun k => cfg.retry_base_delay * 2 ^ k) := by
    intro n
    rw [backoffs_eq_range]
    apply List.map_congr_left
    intro k _
    rw [Nat.zero_add]
  constructor
  · intro hf
    obtain ⟨st', h1, h2, _⟩ := retryEnqueue_all_fail f cfg.retry_base_delay ev m
      cfg.retry_attempts 0 0 err0
      { st with stats := { st.stats with
          enqueue_failures := bump st.stats.enqueue_failures ev.event_type } }
      hb (fun k _ hk2 => hf k (by omega))
    refine ⟨st', ?_, ?_⟩
    · rw [handleEnqueueFailure_retry_eq cfg hmode, h1]
      simp
    · rw [h2, hrange]
  · intro j hj hf hnone
    obtain ⟨st', h1, h2⟩ := retryEnqueue_succeeds f cfg.retry_base_delay ev m
      j cfg.retry_attempts 0 0 err0
      { st with stats := { st.stats with
          enqueue_failures := bump st.stats.enqueue_failures ev.event_type } }
      hb hj (fun k _ hk2 => hf k (by omega)) (by rw [Nat.zero_add]; exact hnone)
    refine ⟨st', ?_, ?_⟩
    · rw [handleEnqueueFailure_retry_eq cfg hmode, h1]
    · rw [h2, hrange]

/-- Claim C2 witness: with two attempts configured, the first retry fails
and the second succeeds; the call returns normally after sleeping 1 then 2
seconds (base 1, doubling). -/
theorem c2_retry_backoff_and_last_error_witness :
    ∃ st', handleEnqueueFailure
        (scriptEnqBackend fun k => if k < 1 then some "r0" else none)
        cfgRetryW evW "orig" (initState 0 dlq10k) = (st', .ok ()) ∧
      sleepsOf st'.trace = sleepsOf (initState 0 dlq10k).trace ++
        (List.range 2).map (fun k => cfgRetryW.retry_base_delay * 2 ^ k) :=
  (c2_retry_backoff_and_last_error cfgRetryW rfl
      (fun k => if k < 1 then some "r0" else none) (fun _ => "r0") evW "orig"
      (initState 0 dlq10k) rfl).2 1 (by decide)
    (fun k hk => by interval_cases k; rfl) (by rfl)

/-- Claim C2 counterexample — with one retry attempt whose enqueue fails
with a different error message, the raised `EnqueueError` retains `"retry
failure"` (the last error), not `"original failure"` (the original cause):
`_handle_enqueue_failure` raises `EnqueueError(last_error)`. -/
theorem c2_claim_false_retained_cause_is_last :
    (handleEnqueueFailure (scriptEnqBackend fun _ => some "retry failure")
        cfgRetry1 evW "original failure" (initState 0 dlq10k)).2 =
      .error "retry failure" ∧
    "retry failure" ≠ "original failure" := by
  constructor
  · rfl
  · decide

/-- The loop-state fields owned by the pull phase: the dispatch and
acknowledgment phases never touch the consecutive-failure counter, the
recorded last backend error, `backend_errors`, or `events_processed`. -/
def SameCore (st st' : LoopState σ) : Prop :=
  st'.consecutive_pull_failures = st.consecutive_pull_failures ∧
  st'.last_backend_error = st.last_backend_error ∧
  st'.stats.backend_errors = st.stats.backend_errors ∧
  st'.stats.events_processed = st.stats.events_processed

theorem sameCore_refl (st : LoopState σ) : SameCore st st :=
  ⟨rfl, rfl, rfl, rfl⟩

theorem sameCore_trans {st1 st2 st3 : LoopState σ}
    (h1 : SameCore st1 st2) (h2 : SameCore st2 st3) : SameCore st1 st3 := by
  obtain ⟨a1, b1, c1, d1⟩ := h1
  obtain ⟨a2, b2, c2, d2⟩ := h2
  exact ⟨a2.trans a1, b2.trans b1, c2.trans c1, d2.trans d1⟩

theorem retryEnqueue_sameCore (B : Backend σ) (base : Rat) (ev : Event) :
    ∀ (rem attempt : Nat) (last : String) (st : LoopState σ),
      SameCore st (retryEnqueue B base ev attempt rem last st).1 := by
  intro rem
  induction rem with
  | zero => intro attempt last st; exact sameCore_refl st
  | succ rem ih =>
    intro attempt last st
    rw [retryEnqueue]
    rcases hbe : B.enqueue st.backend ev with ⟨b', r⟩
    simp only [hbe]
    cases r with
    | none => exact ⟨rfl, rfl, rfl, rfl⟩
    | some e =>
      exact sameCore_trans ⟨rfl, rfl, rfl, rfl⟩ (ih _ _ _)

theorem handleEnqueueFailure_sameCore (B : Backend σ) (cfg : SpineConfig)
    (ev : Event) (err : String) (st : LoopState σ) :
    SameCore st (handleEnqueueFailure B cfg ev err st).1 := by
  unfold handleEnqueueFailure
  cases cfg.enqueue_failure_mode with
  | fail => exact ⟨rfl, rfl, rfl, rfl⟩
  | retry =>
    exact sameCore_trans ⟨rfl, rfl, rfl, rfl⟩
      (retryEnqueue_sameCore B _ ev _ _ _ _)
  | store => exact ⟨rfl, rfl, rfl, rfl⟩

theorem enqueueEmitted_sameCore (B : Backend σ) (cfg : SpineConfig) :
    ∀ (events : List Event) (st : LoopState σ),
      SameCore st (enqueueEmitted B cfg events st).1 := by
  intro events
  induction events with
  | nil => intro st; exact sameCore_refl st
  | cons e rest ih =>
    intro st
    rw [enqueueEmitted]
    rcases hbe : B.enqueue st.backend e with ⟨b', r⟩
    simp only [hbe]
    cases r with
    | none =>
      exact sameCore_trans ⟨rfl, rfl, rfl, rfl⟩ (ih _)
    | some err =>
      rcases hhe : handleEnqueueFailure B cfg e err { st with
        backend := b'
        trace := st.trace ++ [TraceOp.enqueueOp e (some err).isNone] } with ⟨st2, r2⟩
      have h2 : SameCore st st2 := by
        have := handleEnqueueFailure_sameCore B cfg e err { st with
          backend := b'
          trace := st.trace ++ [TraceOp.enqueueOp e (some err).isNone] }
        rw [hhe] at this
        exact sameCore_trans ⟨rfl, rfl, rfl, rfl⟩ this
      simp only [hhe]
      cases r2 with
      | error m => exact h2
      | ok u => cases u; exact sameCore_trans h2 (ih _)

theorem dispatchOrgans_sameCore (B : Backend σ) (cfg : SpineConfig) (event : Event) :
    ∀ (organs : List Organ) (failed : Bool) (err : Option String) (st : LoopState σ),
      SameCore st (dispatchOrgans B cfg event organs failed err st).1 := by
  intro organs
  induction organs with
  | nil => intro failed err st; exact sameCore_refl st
  | cons o rest ih =>
    intro failed err st
    rw [dispatchOrgans]
    by_cases hmem : event.event_type ∈ o.listens_to
    · rw [if_pos hmem]
      cases hinv : invokeHandler o event with
      | ok emitted =>
        rcases hee : enqueueEmitted B cfg emitted.toEnqueue { st with
          trace := st.trace ++ [TraceOp.dispatchOp o.name event.id] } with ⟨st2, r2⟩
        have h2 : SameCore st st2 := by
          have := enqueueEmitted_sameCore B cfg emitted.toEnqueue { st with
            trace := st.trace ++ [TraceOp.dispatchOp o.name event.id] }
          rw [hee] at this
          exact sameCore_trans ⟨rfl, rfl, rfl, rfl⟩ this
        simp only [hee]
        cases r2 with
        | error m => exact h2
        | ok u => cases u; exact sameCore_trans h2 (ih _ _ _)
      | error ie =>
        exact sameCore_trans ⟨rfl, rfl, rfl, rfl⟩ (ih _ _ _)
    · rw [if_neg hmem]
      exact ih _ _ _

theorem doAck_sameCore (B : Backend σ) (event : Event) (st : LoopState σ) :
    SameCore st (doAck B event st) := by
  unfold doAck
  rcases hba : B.ack st.backend event with ⟨b', r⟩
  cases r with
  | none => exact ⟨rfl, rfl, rfl, rfl⟩
  | some e => exact ⟨rfl, rfl, rfl, rfl⟩

theorem resolveAck_sameCore (B : Backend σ) (cfg : SpineConfig) (event : Event)
    (failed : Bool) (err : Option String) (st : LoopState σ) :
    SameCore st (resolveAck B cfg event failed err st) := by
  unfold resolveAck
  cases failed with
  | false => exact doAck_sameCore B event st
  | true =>
    cases cfg.handler_failure_mode with
    | store =>
      exact sameCore_trans ⟨rfl, rfl, rfl, rfl⟩ (doAck_sameCore B event _)
    | nack => exact sameCore_refl st
    | log => exact doAck_sameCore B event st

theorem loopIter_unavailable_inv (B : Backend σ) (cfg : SpineConfig)
    {st s : LoopState σ} {c : Nat} {l : Option String}
    (h : loopIter B cfg st = .unavailable c l s) :
    c = st.consecutive_pull_failures ∧ l = st.last_backend_error ∧ s = st ∧
      cfg.max_consecutive_backend_failures ≤ st.consecutive_pull_failures := by
  unfold loopIter at h
  split at h
  · simp at h
  · split at h
    · rename_i h1 h2
      cases h
      exact ⟨rfl, rfl, rfl, h2⟩
    · split at h
      · simp at h
      · simp at h
      · split at h
        · simp at h
        · simp at h

theorem loopIter_next_core (B : Backend σ) (cfg : SpineConfig)
    {st st' : LoopState σ} (h : loopIter B cfg st = .next st') :
    st.stats.events_processed < cfg.max_steps ∧
    st.consecutive_pull_failures < cfg.max_consecutive_backend_failures ∧
    ((st'.consecutive_pull_failures = st.consecutive_pull_failures + 1 ∧
      st'.stats.backend_errors = st.stats.backend_errors + 1 ∧
      st'.stats.events_processed = st.stats.events_processed) ∨
     (st'.consecutive_pull_failures = 0 ∧
      st'.stats.backend_errors = st.stats.backend_errors ∧
      st'.last_backend_error = none ∧
      st.stats.events_processed ≤ st'.stats.events_processed ∧
      st'.stats.events_processed ≤ st.stats.events_processed + 1)) := by
  unfold loopIter at h
  split at h
  · simp at h
  · split at h
    · simp at h
    · rename_i h1 h2
      refine ⟨by omega, by omega, ?_⟩
      split at h
      · cases h
        left
        exact ⟨rfl, rfl, rfl⟩
      · cases h
        right
        exact ⟨rfl, rfl, rfl, le_refl _, Nat.le_succ _⟩
      · rename_i b' event heqpull
        split at h
        · simp at h
        · rename_i st2 failed err heqdisp
          cases h
          have hdc := dispatchOrgans_sameCore B cfg event cfg.organs false none
            (startProcessing (afterPull st b'))
          rw [heqdisp] at hdc
          have hrc := resolveAck_sameCore B cfg event failed err st2
          obtain ⟨a1, b1, c1, d1⟩ := hdc
          obtain ⟨a2, b2, c2, d2⟩ := hrc
          right
          refine ⟨by rw [a2, a1]; rfl, by rw [c2, c1]; rfl, by rw [b2, b1]; rfl, ?_, ?_⟩
          · rw [d2, d1]
            show st.stats.events_processed ≤ st.stats.events_processed + 1
            omega
          · rw [d2, d1]
            exact Nat.le_refl _

theorem runLoop_unavailable_inv (B : Backend σ) (cfg : SpineConfig) :
    ∀ (fuel : Nat) (st : LoopState σ) (cnt : Nat) (le : Option String)
      (st' : LoopState σ),
      st.consecutive_pull_failures ≤ cfg.max_consecutive_backend_failures →
      st.consecutive_pull_failures ≤ st.stats.backend_errors →
      runLoop B cfg fuel st = .unavailable cnt le st' →
      cnt = cfg.max_consecutive_backend_failures ∧
        cnt ≤ st'.stats.backend_errors := by
  intro fuel
  induction fuel with
  | zero =>
    intro st cnt le st' _ _ h
    simp [runLoop] at h
  | succ fuel ih =>
    intro st cnt le st' hle hbe h
    rw [runLoop] at h
    cases hit : loopIter B cfg st with
    | maxSteps s => rw [hit] at h; simp at h
    | enqueueFailed m s => rw [hit] at h; simp at h
    | unavailable c l s =>
      rw [hit] at h
      obtain ⟨hc, hl, hs, hguard⟩ := loopIter_unavailable_inv B cfg hit
      cases h
      subst hc hs
      exact ⟨by omega, by omega⟩
    | next s =>
      rw [hit] at h
      obtain ⟨_, hlt, hcase⟩ := loopIter_next_core B cfg hit
      rcases hcase with ⟨ha, hb, _⟩ | ⟨ha, hb, _, _, _⟩
      · exact ih s cnt le st' (by omega) (by omega) h
      · exact ih s cnt le st' (by omega) (by omega) h

/-- A backend whose `pull` always raises, with the call counter as state and
the error message given by the script `m`. -/
def failPullBackend (m : Nat → String) : Backend Nat :=
  { enqueue := fun s _ => (s, none)
    pull := fun s => (s + 1, .error (m s))
    ack := fun s _ => (s, none) }

theorem runLoop_step_next {B : Backend σ} {cfg : SpineConfig}
    {st s : LoopState σ} (fuel : Nat) (h : loopIter B cfg st = .next s) :
    runLoop B cfg (fuel + 1) st = runLoop B cfg fuel s := by
  rw [runLoop, h]

theorem runLoop_step_unavailable {B : Backend σ} {cfg : SpineConfig}
    {st s : LoopState σ} {c : Nat} {l : Option String} (fuel : Nat)
    (h : loopIter B cfg st = .unavailable c l s) :
    runLoop B cfg (fuel + 1) st = .unavailable c l s := by
  rw [runLoop, h]

theorem runLoop_step_maxSteps {B : Backend σ} {cfg : SpineConfig}
    {st s : LoopState σ} (fuel : Nat) (h : loopIter B cfg st = .maxSteps s) :
    runLoop B cfg (fuel + 1) st = .maxSteps s := by
  rw [runLoop, h]

theorem runLoop_all_pull_fail (m : Nat → String) (cfg : SpineConfig)
    (hms : 1 ≤ cfg.max_steps) :
    ∀ (k : Nat) (st : LoopState Nat) (fuel : Nat),
      st.consecutive_pull_failures + k = cfg.max_consecutive_backend_failures →
      st.stats.events_processed = 0 →
      k + 1 ≤ fuel →
      ∃ st', runLoop (failPullBackend m) cfg fuel st =
          .unavailable cfg.max_consecutive_backend_failures
            (if k = 0 then st.last_backend_error else some (m (st.backend + k - 1)))
            st' ∧
        st'.stats.backend_errors = st.stats.backend_errors + k := by
  intro k
  induction k with
  | zero =>
    intro st fuel hcons hproc hfuel
    obtain ⟨f, rfl⟩ : ∃ f, fuel = f + 1 := ⟨fuel - 1, by omega⟩
    have hiter : loopIter (failPullBackend m) cfg st =
        .unavailable st.consecutive_pull_failures st.last_backend_error st := by
      unfold loopIter
      rw [if_neg (by omega), if_pos (by omega)]
    have hc : st.consecutive_pull_failures = cfg.max_consecutive_backend_failures := by
      omega
    rw [runLoop_step_unavailable f hiter, hc]
    exact ⟨st, by simp, by omega⟩
  | succ k ih =>
    intro st fuel hcons hproc hfuel
    obtain ⟨f, rfl⟩ : ∃ f, fuel = f + 1 := ⟨fuel - 1, by omega⟩
    have hiter : loopIter (failPullBackend m) cfg st =
        .next { afterPull st (st.backend + 1) with
          consecutive_pull_failures := st.consecutive_pull_failures + 1
          stats := { st.stats with backend_errors := st.stats.backend_errors + 1 }
          last_backend_error := some (m st.backend) } := by
      unfold loopIter
      rw [if_neg (by omega), if_neg (by omega)]
      rfl
    rw [runLoop_step_next f hiter]
    obtain ⟨st', h1, h2⟩ := ih
      { afterPull st (st.backend + 1) with
        consecutive_pull_failures := st.consecutive_pull_failures + 1
        stats := { st.stats with backend_errors := st.stats.backend_errors + 1 }
        last_backend_error := some (m st.backend) }
      f (by simp [afterPull]; omega) (by simpa [afterPull] using hproc) (by omega)
    refine ⟨st', ?_, by simp [afterPull] at h2; omega⟩
    rw [h1]
    rcases Nat.eq_zero_or_pos k with hk | hk
    · subst hk
      simp [afterPull]
    · rw [if_neg (by omega), if_neg (by omega)]
      have harith : st.backend + 1 + k - 1 = st.backend + (k + 1) - 1 := by omega
      simp only [afterPull]
      rw [harith]

/-- A configuration with circuit-breaker threshold 3 and no organs. -/
def cfgT3 : SpineConfig :=
  { organs := [], max_steps := 10, enqueue_failure_mode := .store,
    handler_failure_mode := .log, retry_attempts := 3, retry_base_delay := 1 / 10,
    max_consecutive_backend_failures := 3 }

/-- A backend whose pulls go: fail "e0", succeed with no event, then fail
"e2", "e3", "e4", ... (state counts pull calls). -/
def mixedPullBackend : Backend Nat :=
  { enqueue := fun s _ => (s, none)
    pull := fun s => (s + 1, if s = 1 then .ok none else .error ("e" ++ toString s))
    ack := fun s _ => (s, none) }

/-- Claim C3 (amended) — the circuit breaker: (i) whenever `run` terminates
with `BackendUnavailable`, its `failure_count` equals
`max_consecutive_backend_failures` (the final consecutive-failure streak
cannot exceed the threshold, since the guard fires first), and
`stats.backend_errors` is at least that count — it equals the count only
when the terminal streak contains every pull failure of the run; (ii) with
a backend whose every pull raises, `run` raises `BackendUnavailable` whose
`failure_count` equals the threshold `N`, whose `last_error` is the message
of the last (N-th) underlying error, and `stats.backend_errors = N`. -/
theorem c3_circuit_breaker (cfg : SpineConfig) (m : Nat → String)
    (b0 : σ) (dlq : FailedEventStore) (B : Backend σ)
    (hms : 1 ≤ cfg.max_steps) (ht : 1 ≤ cfg.max_consecutive_backend_failures)
    (fuel : Nat) (hfuel : cfg.max_consecutive_backend_failures + 1 ≤ fuel) :
    (∀ cnt le st', runLoop B cfg fuel (initState b0 dlq) = .unavailable cnt le st' →
      cnt = cfg.max_consecutive_backend_failures ∧
        cnt ≤ st'.stats.backend_errors) ∧
    (∃ st', runLoop (failPullBackend m) cfg fuel (initState 0 dlq) =
        .unavailable cfg.max_consecutive_backend_failures
          (some (m (cfg.max_consecutive_backend_failures - 1))) st' ∧
      st'.stats.backend_errors = cfg.max_consecutive_backend_failures) := by
  constructor
  · intro cnt le st' h
    exact runLoop_unavailable_inv B cfg fuel (initState b0 dlq) cnt le st'
      (by simp [initState]) (by simp [initState]) h
  · obtain ⟨st', h1, h2⟩ := runLoop_all_pull_fail m cfg hms
      cfg.max_consecutive_backend_failures (initState 0 dlq) fuel
      (by simp [initState]) (by simp [initState, SpineStats.init]) (by omega)
    refine ⟨st', ?_, ?_⟩
    · rw [h1, if_neg (by omega)]
      have : (initState (0 : Nat) dlq).backend +
          cfg.max_consecutive_backend_failures - 1 =
          cfg.max_consecutive_backend_failures - 1 := by
        simp [initState]
      rw [this]
    · rw [h2]
      simp [initState, SpineStats.init]

/-- Claim C3 witness: with threshold 3 and an always-failing backend, the
run raises `BackendUnavailable` with `failure_count = 3`, `last_error`
`"e2"` (the third script message), and `backend_errors = 3`. -/
theorem c3_circuit_breaker_witness :
    ∃ st', runLoop (failPullBackend fun k => "e" ++ toString k) cfgT3 10
        (initState 0 dlq10k) =
        .unavailable cfgT3.max_consecutive_backend_failures
          (some ("e" ++ toString (cfgT3.max_consecutive_backend_failures - 1))) st' ∧
      st'.stats.backend_errors = cfgT3.max_consecutive_backend_failures :=
  (c3_circuit_breaker cfgT3 (fun k => "e" ++ toString k) 0 dlq10k
    (failPullBackend fun k => "e" ++ toString k)
    (by decide) (by decide) 10 (by decide)).2

/-- Claim C3 counterexample — a run whose pulls go fail, success (no
event), then three consecutive fails against threshold 3: the terminal
consecutive streak has `N = 3 = failure_count`, but `stats.backend_errors`
is `4` (it also counted the earlier, non-consecutive failure), refuting the
claim's "stats.backend_errors equals N". -/
theorem c3_claim_false_backend_errors_count :
    (runLoop mixedPullBackend cfgT3 10 (initState 0 dlq10k)).unavailCount =
      some 3 ∧
    (runLoop mixedPullBackend cfgT3 10
      (initState 0 dlq10k)).finalState.stats.backend_errors = 4 :=
  ⟨rfl, rfl⟩

theorem enqueueEmitted_ok (B : Backend σ) (cfg : SpineConfig)
    (Henq : ∀ s e, (B.enqueue s e).2 = none) :
    ∀ (events : List Event) (st : LoopState σ),
      ∃ st2, enqueueEmitted B cfg events st = (st2, .ok ()) := by
  intro events
  induction events with
  | nil => intro st; exact ⟨st, rfl⟩
  | cons e rest ih =>
    intro st
    rcases hbe : B.enqueue st.backend e with ⟨b', r⟩
    have hr : r = none := by
      have := Henq st.backend e
      rw [hbe] at this
      exact this
    subst hr
    rw [enqueueEmitted, hbe]
    exact ih _

theorem dispatchOrgans_ok (B : Backend σ) (cfg : SpineConfig) (event : Event)
    (Henq : ∀ s e, (B.enqueue s e).2 = none) :
    ∀ (organs : List Organ) (failed : Bool) (err : Option String)
      (st : LoopState σ),
      ∃ st2 failed' err',
        dispatchOrgans B cfg event organs failed err st =
          (st2, .ok (failed', err')) := by
  intro organs
  induction organs with
  | nil => intro failed err st; exact ⟨st, failed, err, rfl⟩
  | cons o rest ih =>
    intro failed err st
    rw [dispatchOrgans]
    by_cases hmem : event.event_type ∈ o.listens_to
    · rw [if_pos hmem]
      cases hinv : invokeHandler o event with
      | ok emitted =>
        obtain ⟨st2, hee⟩ := enqueueEmitted_ok B cfg Henq emitted.toEnqueue
          { st with trace := st.trace ++ [TraceOp.dispatchOp o.name event.id] }
        simp only [hee]
        exact ih _ _ _
      | error ie => exact ih _ _ _
    · rw [if_neg hmem]
      exact ih _ _ _

theorem runLoop_maxSteps_exact (B : Backend σ) (cfg : SpineConfig)
    (Hpull : ∀ s, ∃ s' e, B.pull s = (s', .ok (some e)))
    (Henq : ∀ s e, (B.enqueue s e).2 = none)
    (ht : 1 ≤ cfg.max_consecutive_backend_failures) :
    ∀ (k : Nat) (st : LoopState σ) (fuel : Nat),
      st.stats.events_processed + k = cfg.max_steps →
      st.consecutive_pull_failures = 0 →
      k + 1 ≤ fuel →
      ∃ st', runLoop B cfg fuel st = .maxSteps st' ∧
        st'.stats.events_processed = cfg.max_steps := by
  intro k
  induction k with
  | zero =>
    intro st fuel hk hcons hfuel
    obtain ⟨f, rfl⟩ : ∃ f, fuel = f + 1 := ⟨fuel - 1, by omega⟩
    have hiter : loopIter B cfg st = .maxSteps st := by
      unfold loopIter
      rw [if_pos (by omega)]
    exact ⟨st, runLoop_step_maxSteps f hiter, by omega⟩
  | succ k ih =>
    intro st fuel hk hcons hfuel
    obtain ⟨f, rfl⟩ : ∃ f, fuel = f + 1 := ⟨fuel - 1, by omega⟩
    obtain ⟨b', e, hp⟩ := Hpull st.backend
    obtain ⟨st2, failed, err, hd⟩ := dispatchOrgans_ok B cfg e Henq cfg.organs
      false none (startProcessing (afterPull st b'))
    have hiter : loopIter B cfg st = .next (resolveAck B cfg e failed err st2) := by
      unfold loopIter
      rw [if_neg (by omega), if_neg (by omega), hp]
      simp only [hd]
    have hdc := dispatchOrgans_sameCore B cfg e cfg.organs false none
      (startProcessing (afterPull st b'))
    rw [hd] at hdc
    have hrc := resolveAck_sameCore B cfg e failed err st2
    obtain ⟨a1, _, _, d1⟩ := hdc
    obtain ⟨a2, _, _, d2⟩ := hrc
    have hproc : (resolveAck B cfg e failed err st2).stats.events_processed =
        st.stats.events_processed + 1 := by
      rw [d2]
      exact d1
    have hcons' : (resolveAck B cfg e failed err st2).consecutive_pull_failures = 0 := by
      rw [a2]
      exact a1
    rw [runLoop_step_next f hiter]
    exact ih (resolveAck B cfg e failed err st2) f (by omega) hcons' (by omega)

/-- Claim C4 — under any configuration in which the backend always has an
event available (the queue never drains) and enqueues never fail, `run`
terminates by raising the "max steps exceeded" `RuntimeError` with exactly
`max_steps` events processed at that point. -/
theorem c4_max_steps_exact (B : Backend σ) (cfg : SpineConfig) (b0 : σ)
    (dlq : FailedEventStore)
    (Hpull : ∀ s, ∃ s' e, B.pull s = (s', .ok (some e)))
    (Henq : ∀ s e, (B.enqueue s e).2 = none)
    (ht : 1 ≤ cfg.max_consecutive_backend_failures)
    (fuel : Nat) (hfuel : cfg.max_steps + 1 ≤ fuel) :
    ∃ st', runLoop B cfg fuel (initState b0 dlq) = .maxSteps st' ∧
      st'.stats.events_processed = cfg.max_steps :=
  runLoop_maxSteps_exact B cfg Hpull Henq ht cfg.max_steps (initState b0 dlq)
    fuel (by simp [initState, SpineStats.init]) (by simp [initState]) hfuel

/-- An organ that re-emits an event of the type it listens to: an
infinite-emission configuration over a never-draining backend. -/
def organEmitW : Organ := ⟨"E", ["A"], fun _ => .returns (.retEvent evW)⟩

/-- A backend that always has `evW` available and accepts every enqueue. -/
def constB : Backend Unit :=
  { enqueue := fun s _ => (s, none)
    pull := fun s => (s, .ok (some evW))
    ack := fun s _ => (s, none) }

/-- An infinite-emission configuration with `max_steps = 3`. -/
def cfgC4 : SpineConfig :=
  { organs := [organEmitW], max_steps := 3, enqueue_failure_mode := .store,
    handler_failure_mode := .log, retry_attempts := 3, retry_base_delay := 1 / 10,
    max_consecutive_backend_failures := 10 }

/-- Claim C4 witness: the emitting configuration stops with the max-steps
error after exactly 3 processed events. -/
theorem c4_max_steps_exact_witness :
    ∃ st', runLoop constB cfgC4 5 (initState () dlq10k) = .maxSteps st' ∧
      st'.stats.events_processed = cfgC4.max_steps :=
  c4_max_steps_exact constB cfgC4 () dlq10k
    (fun s => ⟨(), evW, rfl⟩) (fun s e => rfl) (by decide) 5 (by decide)

/-- An organ whose handler returns a `tuple` of events — valid under
`Organ.handle`'s declared contract (`Sequence[Event]`), rejected by
`Spine._invoke_handler`. -/
def organTupleW : Organ := ⟨"T", ["A"], fun _ => .returns (.retTuple [evW])⟩

/-- An organ that raises on every event. -/
def organRaiseW : Organ := ⟨"R", ["A"], fun _ => .raises "boom"⟩

/-- An organ listening to `X` and `A` that returns `None`. -/
def organBW : Organ := ⟨"B", ["X", "A"], fun _ => .returns .retNone⟩

/-- An organ listening only to `X` (never matched by `evW`). -/
def organCW : Organ := ⟨"C", ["X"], fun _ => .returns .retNone⟩

/-- An in-process FIFO backend over a list of events. -/
def oneShotB : Backend (List Event) :=
  { enqueue := fun s e => (s ++ [e], none)
    pull := fun s =>
      match s with
      | [] => ([], .ok none)
      | e :: rest => (rest, .ok (some e))
    ack := fun s _ => (s, none) }

/-- A configuration with only the tuple-returning organ. -/
def cfgC6 : SpineConfig :=
  { organs := [organTupleW], max_steps := 10, enqueue_failure_mode := .store,
    handler_failure_mode := .log, retry_attempts := 3, retry_base_delay := 1 / 10,
    max_consecutive_backend_failures := 10 }

/-- Claim C6 (code-bug evaluation at the failing input) — a handler
returning a tuple of events (a finite sequence of events, and well-typed per
`Organ.handle`'s declared `Sequence[Event]` contract) is rejected by
`_invoke_handler` with the return-type `TypeError`, which the loop counts as
a handler error against that organ; the same events in a `list` are
accepted.  The dispatcher contradicts the contract `organ.py` declares. -/
theorem c6_tuple_return_rejected :
    invokeHandler organTupleW evW =
      .error (.typeError
        "Handler T must return Event, list[Event], or None, got tuple") ∧
    (runLoop oneShotB cfgC6 2
      (initState [evW] dlq10k)).finalState.stats.handler_errors "T" = 1 ∧
    invokeHandler ⟨"T", ["A"], fun _ => .returns (.retList [.ev evW])⟩ evW =
      .ok (.many [evW]) :=
  ⟨rfl, rfl, rfl⟩

theorem dispatchedNames_append (a b : List TraceOp) :
    dispatchedNames (a ++ b) = dispatchedNames a ++ dispatchedNames b := by
  simp [dispatchedNames]

theorem ackedEvents_append (a b : List TraceOp) :
    ackedEvents (a ++ b) = ackedEvents a ++ ackedEvents b := by
  simp [ackedEvents]

/-- Trace entries produced by the enqueue phase (sleeps and enqueues):
they contribute neither dispatch-log lines nor acks. -/
def enqPhaseOp : TraceOp → Bool
  | .sleepOp _ => true
  | .enqueueOp _ _ => true
  | _ => false

theorem dispatchedNames_enqPhase (tail : List TraceOp)
    (h : ∀ op ∈ tail, enqPhaseOp op = true) : dispatchedNames tail = [] := by
  induction tail with
  | nil => rfl
  | cons op rest ih =>
    have hop := h op (List.mem_cons_self op rest)
    cases op with
    | sleepOp d => simpa [dispatchedNames] using ih fun o ho => h o (List.mem_cons_of_mem _ ho)
    | enqueueOp e b => simpa [dispatchedNames] using ih fun o ho => h o (List.mem_cons_of_mem _ ho)
    | pullOp => simp [enqPhaseOp] at hop
    | ackOp e b => simp [enqPhaseOp] at hop
    | dispatchOp n i => simp [enqPhaseOp] at hop

theorem ackedEvents_enqPhase (tail : List TraceOp)
    (h : ∀ op ∈ tail, enqPhaseOp op = true) : ackedEvents tail = [] := by
  induction tail with
  | nil => rfl
  | cons op rest ih =>
    have hop := h op (List.mem_cons_self op rest)
    cases op with
    | sleepOp d => simpa [ackedEvents] using ih fun o ho => h o (List.mem_cons_of_mem _ ho)
    | enqueueOp e b => simpa [ackedEvents] using ih fun o ho => h o (List.mem_cons_of_mem _ ho)
    | pullOp => simp [enqPhaseOp] at hop
    | ackOp e b => simp [enqPhaseOp] at hop
    | dispatchOp n i => simp [enqPhaseOp] at hop

theorem retryEnqueue_trace_delta (B : Backend σ) (base : Rat) (ev : Event) :
    ∀ (rem attempt : Nat) (last : String) (st : LoopState σ),
      ∃ tail, (retryEnqueue B base ev attempt rem last st).1.trace =
          st.trace ++ tail ∧ ∀ op ∈ tail, enqPhaseOp op = true := by
  intro rem
  induction rem with
  | zero => intro attempt last st; exact ⟨[], by simp [retryEnqueue], by simp⟩
  | succ rem ih =>
    intro attempt last st
    rw [retryEnqueue]
    rcases hbe : B.enqueue st.backend ev with ⟨b', r⟩
    simp only [hbe]
    cases r with
    | none =>
      refine ⟨[TraceOp.sleepOp (base * 2 ^ attempt),
        TraceOp.enqueueOp ev (none : Option String).isNone], by simp, ?_⟩
      intro op hop
      fin_cases hop
      all_goals rfl
    | some e =>
      obtain ⟨tail, h1, h2⟩ := ih (attempt + 1) e { st with
        backend := b'
        trace := (st.trace ++ [TraceOp.sleepOp (base * 2 ^ attempt)]) ++
          [TraceOp.enqueueOp ev (some e).isNone] }
      refine ⟨[TraceOp.sleepOp (base * 2 ^ attempt),
        TraceOp.enqueueOp ev (some e).isNone] ++ tail, ?_, ?_⟩
      · rw [h1]
        simp
      · intro op hop
        rcases List.mem_append.mp hop with h | h
        · fin_cases h
          all_goals rfl
        · exact h2 op h

theorem handleEnqueueFailure_trace_delta (B : Backend σ) (cfg : SpineConfig)
    (ev : Event) (err : String) (st : LoopState σ) :
    ∃ tail, (handleEnqueueFailure B cfg ev err st).1.trace = st.trace ++ tail ∧
      ∀ op ∈ tail, enqPhaseOp op = true := by
  unfold handleEnqueueFailure
  cases cfg.enqueue_failure_mode with
  | fail => exact ⟨[], by simp, by simp⟩
  | retry => exact retryEnqueue_trace_delta B cfg.retry_base_delay ev _ _ _ _
  | store => exact ⟨[], by simp, by simp⟩

theorem enqueueEmitted_trace_delta (B : Backend σ) (cfg : SpineConfig) :
    ∀ (events : List Event) (st : LoopState σ),
      ∃ tail, (enqueueEmitted B cfg events st).1.trace = st.trace ++ tail ∧
        ∀ op ∈ tail, enqPhaseOp op = true := by
  intro events
  induction events with
  | nil => intro st; exact ⟨[], by simp [enqueueEmitted], by simp⟩
  | cons e rest ih =>
    intro st
    rw [enqueueEmitted]
    rcases hbe : B.enqueue st.backend e with ⟨b', r⟩
    simp only [hbe]
    cases r with
    | none =>
      obtain ⟨tail, h1, h2⟩ := ih { { st with
        backend := b'
        trace := st.trace ++ [TraceOp.enqueueOp e (none : Option String).isNone] } with
        stats := { st.stats with events_emitted := st.stats.events_emitted + 1 } }
      refine ⟨TraceOp.enqueueOp e (none : Option String).isNone :: tail, ?_, ?_⟩
      · rw [h1]
        simp
      · intro op hop
        rcases List.mem_cons.mp hop with h | h
        · rw [h]; rfl
        · exact h2 op h
    | some err =>
      rcases hhe : handleEnqueueFailure B cfg e err { st with
        backend := b'
        trace := st.trace ++ [TraceOp.enqueueOp e (some err).isNone] } with ⟨st2, r2⟩
      have hdelta := handleEnqueueFailure_trace_delta B cfg e err { st with
        backend := b'
        trace := st.trace ++ [TraceOp.enqueueOp e (some err).isNone] }
      rw [hhe] at hdelta
      obtain ⟨tail1, hd1, hd2⟩ := hdelta
      simp only [hhe]
      cases r2 with
      | error m =>
        refine ⟨TraceOp.enqueueOp e (some err).isNone :: tail1, ?_, ?_⟩
        · rw [hd1]
          simp
        · intro op hop
          rcases List.mem_cons.mp hop with h | h
          · rw [h]; rfl
          · exact hd2 op h
      | ok u =>
        cases u
        obtain ⟨tail2, h1, h2⟩ := ih st2
        refine ⟨TraceOp.enqueueOp e (some err).isNone :: (tail1 ++ tail2), ?_, ?_⟩
        · rw [h1, hd1]
          simp
        · intro op hop
          rcases List.mem_cons.mp hop with h | h
          · rw [h]; rfl
          · rcases List.mem_append.mp h with h' | h'
            · exact hd2 op h'
            · exact h2 op h'

theorem dispatchOrgans_names (B : Backend σ) (cfg : SpineConfig) (event : Event) :
    ∀ (organs : List Organ) (failed : Bool) (err : Option String)
      (st st2 : LoopState σ) (fe : Bool × Option String),
      dispatchOrgans B cfg event organs failed err st = (st2, .ok fe) →
      dispatchedNames st2.trace = dispatchedNames st.trace ++
        (organs.filter fun o =>
          decide (event.event_type ∈ o.listens_to)).map (fun o => o.name) ∧
      ackedEvents st2.trace = ackedEvents st.trace := by
  intro organs
  induction organs with
  | nil =>
    intro failed err st st2 fe h
    rw [dispatchOrgans] at h
    cases h
    simp
  | cons o rest ih =>
    intro failed err st st2 fe h
    rw [dispatchOrgans] at h
    by_cases hmem : event.event_type ∈ o.listens_to
    · rw [if_pos hmem] at h
      cases hinv : invokeHandler o event with
      | ok emitted =>
        rw [hinv] at h
        dsimp only at h
        rcases hee : enqueueEmitted B cfg emitted.toEnqueue { st with
          trace := st.trace ++ [TraceOp.dispatchOp o.name event.id] } with ⟨stE, rE⟩
        have hdelta := enqueueEmitted_trace_delta B cfg emitted.toEnqueue { st with
          trace := st.trace ++ [TraceOp.dispatchOp o.name event.id] }
        rw [hee] at hdelta
        obtain ⟨tail, ht1, ht2⟩ := hdelta
        rw [hee] at h
        cases rE with
        | error m => simp at h
        | ok u =>
          cases u
          obtain ⟨hn, ha⟩ := ih failed err stE st2 fe h
          constructor
          · rw [hn, ht1]
            simp only [dispatchedNames_append, dispatchedNames_enqPhase tail ht2,
              List.append_nil]
            rw [List.filter_cons_of_pos (by simpa using hmem)]
            simp [dispatchedNames]
          · rw [ha, ht1]
            simp only [ackedEvents_append, ackedEvents_enqPhase tail ht2,
              List.append_nil]
            simp [ackedEvents]
      | error ie =>
        rw [hinv] at h
        obtain ⟨hn, ha⟩ := ih true (some ie.msg) _ st2 fe h
        constructor
        · rw [hn]
          rw [List.filter_cons_of_pos (by simpa using hmem)]
          simp [dispatchedNames_append, dispatchedNames]
        · rw [ha]
          simp [ackedEvents_append, ackedEvents]
    · rw [if_neg hmem] at h
      obtain ⟨hn, ha⟩ := ih failed err st st2 fe h
      constructor
      · rw [hn]
        rw [List.filter_cons_of_neg (by simpa using hmem)]
      · exact ha

/-- Claim C7 — for every dispatched event, the dispatcher's per-event organ
loop logs a dispatch (and invokes the handler) for exactly those organs
whose `listens_to` contains the event's type, in registration order: the
dispatch-log trace grows by precisely the names of the matching organs, in
list order; non-matching organs never appear. -/
theorem c7_dispatch_exact_in_order (B : Backend σ) (cfg : SpineConfig)
    (event : Event) (st st2 : LoopState σ) (fe : Bool × Option String)
    (h : dispatchOrgans B cfg event cfg.organs false none st = (st2, .ok fe)) :
    dispatchedNames st2.trace = dispatchedNames st.trace ++
      (cfg.organs.filter fun o =>
        decide (event.event_type ∈ o.listens_to)).map (fun o => o.name) :=
  (dispatchOrgans_names B cfg event cfg.organs false none st st2 fe h).1

/-- A configuration with a raising organ (on `A`), an organ listening only
to `X`, and an organ listening to `X` and `A`, in that order. -/
def cfgD : SpineConfig :=
  { organs := [organRaiseW, organCW, organBW], max_steps := 10,
    enqueue_failure_mode := .store, handler_failure_mode := .store,
    retry_attempts := 3, retry_base_delay := 1 / 10,
    max_consecutive_backend_failures := 10 }

/-- Claim C7 witness: dispatching an `A` event to organs `R` (A), `C` (X),
`B` (X, A) logs exactly `R` then `B`. -/
theorem c7_dispatch_exact_in_order_witness :
    dispatchedNames (dispatchOrgans oneShotB cfgD evW cfgD.organs false none
      (initState ([] : List Event) dlq10k)).1.trace =
      dispatchedNames (initState ([] : List Event) dlq10k).trace ++
        (cfgD.organs.filter fun o =>
          decide (evW.event_type ∈ o.listens_to)).map (fun o => o.name) :=
  c7_dispatch_exact_in_order oneShotB cfgD evW (initState ([] : List Event) dlq10k) _ _ (by rfl)

theorem dispatchOrgans_failed_mono (B : Backend σ) (cfg : SpineConfig)
    (event : Event) (Henq : ∀ s e, (B.enqueue s e).2 = none) :
    ∀ (organs : List Organ) (err : Option String) (st : LoopState σ),
      ∃ st2 err', dispatchOrgans B cfg event organs true err st =
        (st2, .ok (true, err')) := by
  intro organs
  induction organs with
  | nil => intro err st; exact ⟨st, err, rfl⟩
  | cons o rest ih =>
    intro err st
    rw [dispatchOrgans]
    by_cases hmem : event.event_type ∈ o.listens_to
    · rw [if_pos hmem]
      cases hinv : invokeHandler o event with
      | ok emitted =>
        obtain ⟨stE, hee⟩ := enqueueEmitted_ok B cfg Henq emitted.toEnqueue
          { st with trace := st.trace ++ [TraceOp.dispatchOp o.name event.id] }
        simp only [hee]
        exact ih _ _
      | error ie => exact ih _ _
    · rw [if_neg hmem]
      exact ih _ _

theorem dispatchOrgans_failed_of_raise (B : Backend σ) (cfg : SpineConfig)
    (event : Event) (Henq : ∀ s e, (B.enqueue s e).2 = none) (o : Organ)
    (hmem : event.event_type ∈ o.listens_to) (ie : InvokeErr)
    (hraise : invokeHandler o event = .error ie) :
    ∀ (organs : List Organ), o ∈ organs →
      ∀ (failed : Bool) (err : Option String) (st : LoopState σ),
      ∃ st2 err', dispatchOrgans B cfg event organs failed err st =
        (st2, .ok (true, err')) := by
  intro organs
  induction organs with
  | nil => intro ho; cases ho
  | cons hd rest ih =>
    intro ho failed err st
    rw [dispatchOrgans]
    rcases List.mem_cons.mp ho with rfl | ho'
    · rw [if_pos hmem, hraise]
      exact dispatchOrgans_failed_mono B cfg event Henq rest _ _
    · by_cases hmemh : event.event_type ∈ hd.listens_to
      · rw [if_pos hmemh]
        cases hinv : invokeHandler hd event with
        | ok emitted =>
          obtain ⟨stE, hee⟩ := enqueueEmitted_ok B cfg Henq emitted.toEnqueue
            { st with trace := st.trace ++ [TraceOp.dispatchOp hd.name event.id] }
          simp only [hee]
          exact ih ho' _ _ _
        | error ie' => exact ih ho' _ _ _
      · rw [if_neg hmemh]
        exact ih ho' _ _ _

theorem resolveAck_store_spec (B : Backend σ) (cfg : SpineConfig) (event : Event)
    (err : Option String) (st : LoopState σ)
    (hmode : cfg.handler_failure_mode = .store) :
    (resolveAck B cfg event true err st).dlq.events =
      (if st.dlq.max_size ≤ st.dlq.events.length then st.dlq.events.drop 1
        else st.dlq.events) ++ [(event, err.getD "")] ∧
    ackedEvents (resolveAck B cfg event true err st).trace =
      ackedEvents st.trace ++ [event] := by
  unfold resolveAck
  rw [hmode]
  unfold doAck
  rcases hba : B.ack ({ st with
    dlq := st.dlq.store event (err.getD "") } : LoopState σ).backend event with ⟨b', r⟩
  simp only [hba]
  unfold FailedEventStore.store
  cases r with
  | none =>
    constructor
    · by_cases hc : st.dlq.max_size ≤ st.dlq.events.length
      · simp [hc, List.drop_one]
      · simp [hc]
    · simp [ackedEvents_append, ackedEvents]
  | some e =>
    constructor
    · by_cases hc : st.dlq.max_size ≤ st.dlq.events.length
      · simp [hc, List.drop_one]
      · simp [hc]
    · simp [ackedEvents_append, ackedEvents]

/-- Claim C8 — under `handler_failure_mode = STORE`, for a dispatched event
on which a matching organ raised (and enqueues succeed, so the loop is not
aborted by an `EnqueueError`): the organ loop ends with
`handler_failed = true` having issued no acks, and the resolution step
appends exactly one `(event, error)` record to the failed-event store
(evicting the oldest entry if the store is full) and issues exactly one
`ack` of that event to the backend. -/
theorem c8_store_failed_event_once (B : Backend σ) (cfg : SpineConfig)
    (event : Event) (hmode : cfg.handler_failure_mode = .store)
    (Henq : ∀ s e, (B.enqueue s e).2 = none)
    (o : Organ) (ho : o ∈ cfg.organs) (hmem : event.event_type ∈ o.listens_to)
    (ie : InvokeErr) (hraise : invokeHandler o event = .error ie)
    (st : LoopState σ) :
    ∃ st2 err,
      dispatchOrgans B cfg event cfg.organs false none st = (st2, .ok (true, err)) ∧
      ackedEvents st2.trace = ackedEvents st.trace ∧
      (resolveAck B cfg event true err st2).dlq.events =
        (if st2.dlq.max_size ≤ st2.dlq.events.length then st2.dlq.events.drop 1
          else st2.dlq.events) ++ [(event, err.getD "")] ∧
      ackedEvents (resolveAck B cfg event true err st2).trace =
        ackedEvents st2.trace ++ [event] := by
  obtain ⟨st2, err, hd⟩ :=
    dispatchOrgans_failed_of_raise B cfg event Henq o hmem ie hraise
      cfg.organs ho false none st
  obtain ⟨hdlq, hack⟩ := resolveAck_store_spec B cfg event err st2 hmode
  exact ⟨st2, err,
    hd, (dispatchOrgans_names B cfg event cfg.organs false none st st2 _ hd).2,
    hdlq, hack⟩

/-- Claim C8 witness: the raising organ `R` on an `A` event under STORE
mode — one new DLQ record and one ack. -/
theorem c8_store_failed_event_once_witness :
    ∃ st2 err,
      dispatchOrgans oneShotB cfgD evW cfgD.organs false none
        (initState ([] : List Event) dlq10k) = (st2, .ok (true, err)) ∧
      ackedEvents st2.trace =
        ackedEvents (initState ([] : List Event) dlq10k).trace ∧
      (resolveAck oneShotB cfgD evW true err st2).dlq.events =
        (if st2.dlq.max_size ≤ st2.dlq.events.length then st2.dlq.events.drop 1
          else st2.dlq.events) ++ [(evW, err.getD "")] ∧
      ackedEvents (resolveAck oneShotB cfgD evW true err st2).trace =
        ackedEvents st2.trace ++ [evW] :=
  c8_store_failed_event_once oneShotB cfgD evW rfl (fun s e => rfl)
    organRaiseW (by exact List.mem_cons_self _ _) (by decide)
    (.raised "boom") rfl (initState ([] : List Event) dlq10k)

/-- A backend whose queue is always empty: every pull returns no event. -/
def idleB : Backend Unit :=
  { enqueue := fun s _ => (s, none)
    pull := fun s => (s, .ok none)
    ack := fun s _ => (s, none) }

theorem loopIter_pull_ok_resets (B : Backend σ) (cfg : SpineConfig)
    {st st' : LoopState σ} {b' : σ} {x : Option Event}
    (hp : B.pull st.backend = (b', .ok x))
    (h : loopIter B cfg st = .next st') :
    st'.consecutive_pull_failures = 0 ∧ st'.last_backend_error = none := by
  unfold loopIter at h
  split at h
  · simp at h
  · split at h
    · simp at h
    · split at h
      · rename_i bx msg heq
        rw [hp] at heq
        simp at heq
      · cases h
        exact ⟨rfl, rfl⟩
      · rename_i bx event heq
        split at h
        · simp at h
        · rename_i st2 failed err heqdisp
          cases h
          have hdc := dispatchOrgans_sameCore B cfg event cfg.organs false none
            (startProcessing (afterPull st bx))
          rw [heqdisp] at hdc
          have hrc := resolveAck_sameCore B cfg event failed err st2
          obtain ⟨a1, b1, _, _⟩ := hdc
          obtain ⟨a2, b2, _, _⟩ := hrc
          constructor
          · rw [a2]
            rw [show ((st2, Except.ok (failed, err)).1 : LoopState σ) = st2 from rfl] at a1
            rw [a1]
            rfl
          · rw [b2]
            rw [show ((st2, Except.ok (failed, err)).1 : LoopState σ) = st2 from rfl] at b1
            rw [b1]
            rfl

theorem runLoop_idle_no_unavailable (cfg : SpineConfig)
    (ht : 1 ≤ cfg.max_consecutive_backend_failures) :
    ∀ (fuel : Nat) (st : LoopState Unit),
      st.consecutive_pull_failures = 0 →
      (runLoop idleB cfg fuel st).isUnavailable = false := by
  intro fuel
  induction fuel with
  | zero => intro st h0; rfl
  | succ fuel ih =>
    intro st h0
    by_cases h1 : cfg.max_steps ≤ st.stats.events_processed
    · have hiter : loopIter idleB cfg st = .maxSteps st := by
        unfold loopIter
        rw [if_pos h1]
      rw [runLoop_step_maxSteps fuel hiter]
      rfl
    · have hiter : loopIter idleB cfg st = .next
          { afterPull st st.backend with
            consecutive_pull_failures := 0
            last_backend_error := none } := by
        unfold loopIter
        rw [if_neg h1, if_neg (by omega)]
        rfl
      rw [runLoop_step_next fuel hiter]
      exact ih _ rfl

/-- Claim C10 — (i) whenever a loop iteration's `pull` returns without
raising (also when it returns no event because the timeout expired), the
continuing state has the consecutive-failure counter reset to zero and the
recorded last backend error cleared; (ii) consequently, over a backend
whose queue is always empty (every pull succeeds with no event), the run
never raises `BackendUnavailable`, no matter how many iterations occur. -/
theorem c10_pull_success_resets_breaker (B : Backend σ) (cfg : SpineConfig)
    (ht : 1 ≤ cfg.max_consecutive_backend_failures) :
    (∀ (st st' : LoopState σ) (b' : σ) (x : Option Event),
      B.pull st.backend = (b', .ok x) → loopIter B cfg st = .next st' →
      st'.consecutive_pull_failures = 0 ∧ st'.last_backend_error = none) ∧
    (∀ (fuel : Nat) (dlq : FailedEventStore),
      (runLoop idleB cfg fuel (initState () dlq)).isUnavailable = false) := by
  constructor
  · intro st st' b' x hp h
    exact loopIter_pull_ok_resets B cfg hp h
  · intro fuel dlq
    exact runLoop_idle_no_unavailable cfg ht fuel (initState () dlq) rfl

/-- Claim C10 witness: one idle iteration leaves the counter at zero and no
recorded error, and fifty idle iterations never trip the breaker. -/
theorem c10_pull_success_resets_breaker_witness :
    (∃ st', loopIter idleB cfgT3 (initState () dlq10k) = .next st' ∧
      st'.consecutive_pull_failures = 0 ∧ st'.last_backend_error = none) ∧
    (runLoop idleB cfgT3 50 (initState () dlq10k)).isUnavailable = false := by
  constructor
  · refine ⟨_, rfl, ?_⟩
    exact (c10_pull_success_resets_breaker idleB cfgT3 (by decide)).1
      (initState () dlq10k) _ () none rfl rfl
  · exact (c10_pull_success_resets_breaker idleB cfgT3 (by decide)).2 50 dlq10k

theorem lookupMap_removeKey (m : List (String × String)) (k : String) :
    lookupMap (removeKey m k) k = none := by
  induction m with
  | nil => rfl
  | cons kv rest ih =>
    by_cases h : kv.1 = k
    · simpa [removeKey, List.filter_cons, h] using ih
    · simp only [removeKey, List.filter_cons] at ih ⊢
      rw [if_pos (by simpa using h), lookupMap, if_neg h]
      exact ih

/-- Claim C9 (amended) — `RedisBackend.ack(event)`: with no mapping for the
event id it warns and returns (no raise, no XACK, mapping untouched); with
a mapping and a successfully obtained client, XACK is called once on the
mapped message id and the mapping entry is removed afterwards in every such
case, including when XACK raises — so no event whose XACK was attempted
keeps its id in the mapping; but when obtaining the client raises
(`_get_client` fails before the try/finally), `ack` propagates the error,
XACK is never called, and the mapping entry is retained. -/
theorem c9_ack_mapping_cleanup (env : RedisEnv) (eventId : String)
    (st : AckState) :
    (lookupMap st.mapping eventId = none →
      RedisBackend.ackModel env eventId st = (st, .warnedNoOp)) ∧
    (∀ mid, lookupMap st.mapping eventId = some mid → mid ≠ "" →
      env.getClient = .ok () →
      (RedisBackend.ackModel env eventId st).1.xackCalls =
        st.xackCalls ++ [mid] ∧
      lookupMap (RedisBackend.ackModel env eventId st).1.mapping eventId =
        none ∧
      (env.xack = .ok () →
        RedisBackend.ackModel env eventId st =
          ({ mapping := removeKey st.mapping eventId
             events_acked := st.events_acked + 1
             xackCalls := st.xackCalls ++ [mid] }, .acked)) ∧
      (∀ m, env.xack = .error m →
        RedisBackend.ackModel env eventId st =
          ({ st with
             mapping := removeKey st.mapping eventId
             xackCalls := st.xackCalls ++ [mid] }, .raisedXack m))) ∧
    (∀ mid m, lookupMap st.mapping eventId = some mid → mid ≠ "" →
      env.getClient = .error m →
      RedisBackend.ackModel env eventId st = (st, .raisedGetClient m)) := by
  refine ⟨?_, ?_, ?_⟩
  · intro hnone
    unfold RedisBackend.ackModel
    rw [hnone]
  · intro mid hsome hne hclient
    unfold RedisBackend.ackModel
    rw [hsome]
    dsimp only
    rw [if_neg hne, hclient]
    dsimp only
    cases hx : env.xack with
    | ok u =>
      cases u
      exact ⟨rfl, lookupMap_removeKey st.mapping eventId,
        fun _ => rfl, fun m hm => Except.noConfusion hm⟩
    | error m =>
      exact ⟨rfl, lookupMap_removeKey st.mapping eventId,
        fun hm => Except.noConfusion hm,
        fun m' hm => by cases hm; rfl⟩
  · intro mid m hsome hne hclient
    unfold RedisBackend.ackModel
    rw [hsome]
    dsimp only
    rw [if_neg hne, hclient]

/-- Claim C9 witness: a mapped event id with a healthy client — XACK called
once on the mapped message id and the mapping entry gone afterwards, both
when XACK succeeds and (by the theorem) when it raises. -/
theorem c9_ack_mapping_cleanup_witness :
    (RedisBackend.ackModel ⟨.ok (), .ok ()⟩ "e1"
      ⟨[("e1", "1-1")], 0, []⟩).1.xackCalls = [] ++ ["1-1"] ∧
    lookupMap (RedisBackend.ackModel ⟨.ok (), .ok ()⟩ "e1"
      ⟨[("e1", "1-1")], 0, []⟩).1.mapping "e1" = none := by
  have h := (c9_ack_mapping_cleanup ⟨.ok (), .ok ()⟩ "e1"
    ⟨[("e1", "1-1")], 0, []⟩).2.1 "1-1" rfl (by decide) rfl
  exact ⟨h.1, h.2.1⟩

/-- Claim C9 counterexample — a mapping exists for the event, but
`_get_client()` raises (connection failure): `ack` propagates the error
before the `try`/`finally`, XACK is never called, and the mapping entry
for the event id is retained — refuting "if a mapping exists, XACK is
called ... and in every case the mapping entry is removed". -/
theorem c9_claim_false_mapping_retained :
    RedisBackend.ackModel ⟨.error "connection refused", .ok ()⟩ "e1"
      ⟨[("e1", "1-1")], 0, []⟩ =
      (⟨[("e1", "1-1")], 0, []⟩, .raisedGetClient "connection refused") ∧
    lookupMap [("e1", "1-1")] "e1" = some "1-1" :=
  ⟨rfl, rfl⟩

theorem readFixedNat_padDigits :
    ∀ (w acc n : Nat) (rest : List Char), n < 10 ^ w →
      readFixedNat w acc (padDigits w n ++ rest) = some (acc * 10 ^ w + n, rest) := by
  intro w
  induction w with
  | zero =>
    intro acc n rest hn
    interval_cases n
    simp [padDigits, readFixedNat]
  | succ w ih =>
    intro acc n rest hn
    have hd : n / 10 ^ w < 10 := by
      have h10 : 10 ^ (w + 1) = 10 ^ w * 10 := pow_succ 10 w
      exact Nat.div_lt_of_lt_mul (by rw [← h10]; exact hn)
    have hdig : (Char.ofNat (48 + n / 10 ^ w)).isDigit = true ∧
        (Char.ofNat (48 + n / 10 ^ w)).toNat - 48 = n / 10 ^ w := by
      set d := n / 10 ^ w with hdd
      clear_value d
      interval_cases d
      all_goals exact ⟨rfl, rfl⟩
    rw [padDigits, List.cons_append, readFixedNat, if_pos hdig.1, hdig.2,
      ih (acc * 10 + n / 10 ^ w) (n % 10 ^ w) rest
        (Nat.mod_lt n (Nat.pos_pow_of_pos w (by omega)))]
    refine congrArg _ (congrArg₂ _ ?_ rfl)
    calc (acc * 10 + n / 10 ^ w) * 10 ^ w + n % 10 ^ w
        = acc * (10 ^ w * 10) + (10 ^ w * (n / 10 ^ w) + n % 10 ^ w) := by ring
      _ = acc * 10 ^ (w + 1) + n := by rw [Nat.div_add_mod, pow_succ]

theorem parseFraction_plus (cs : List Char) :
    parseFraction ('+' :: cs) = some (0, '+' :: cs) := rfl

theorem parseFraction_dot (cs : List Char) :
    parseFraction ('.' :: cs) = readFixedNat 6 0 cs := rfl

theorem isoformat_data (t : Timestamp) :
    (Timestamp.isoformat t).data =
      padDigits 4 t.year ++ '-' :: (padDigits 2 t.month ++ '-' ::
        (padDigits 2 t.day ++ 'T' :: (padDigits 2 t.hour ++ ':' ::
        (padDigits 2 t.minute ++ ':' :: (padDigits 2 t.second ++
          ((if t.microsecond = 0 then ([] : List Char)
            else '.' :: padDigits 6 t.microsecond) ++
            ['+', '0', '0', ':', '0', '0'])))))) := by
  unfold Timestamp.isoformat pad
  by_cases hm : t.microsecond = 0
  · rw [if_pos hm, if_pos hm]
    simp [String.data_append]
  · rw [if_neg hm, if_neg hm]
    simp [String.data_append]

set_option maxHeartbeats 2000000 in
theorem fromisoformat_isoformat (t : Timestamp) (hv : t.Valid) :
    fromisoformat t.isoformat = some t := by
  obtain ⟨h1, h2, h3, h4, h5, h6, h7, h8, h9, h10⟩ := hv
  have e4 : (10 : Nat) ^ 4 = 10000 := by norm_num
  have e2 : (10 : Nat) ^ 2 = 100 := by norm_num
  have e6 : (10 : Nat) ^ 6 = 1000000 := by norm_num
  have hy : t.year < 10 ^ 4 := by omega
  have hmo : t.month < 10 ^ 2 := by omega
  have hd : t.day < 10 ^ 2 := by omega
  have hh : t.hour < 10 ^ 2 := by omega
  have hmi : t.minute < 10 ^ 2 := by omega
  have hs : t.second < 10 ^ 2 := by omega
  have hus : t.microsecond < 10 ^ 6 := by omega
  unfold fromisoformat
  rw [isoformat_data]
  unfold parseIsoCore
  by_cases hm : t.microsecond = 0
  · rw [if_pos hm]
    simp [readFixedNat_padDigits _ _ _ _ hy, readFixedNat_padDigits _ _ _ _ hmo,
      readFixedNat_padDigits _ _ _ _ hd, readFixedNat_padDigits _ _ _ _ hh,
      readFixedNat_padDigits _ _ _ _ hmi, readFixedNat_padDigits _ _ _ _ hs,
      expectCh, parseFraction_plus, hm]
    cases t
    simp_all
  · rw [if_neg hm]
    simp [readFixedNat_padDigits _ _ _ _ hy, readFixedNat_padDigits _ _ _ _ hmo,
      readFixedNat_padDigits _ _ _ _ hd, readFixedNat_padDigits _ _ _ _ hh,
      readFixedNat_padDigits _ _ _ _ hmi, readFixedNat_padDigits _ _ _ _ hs,
      readFixedNat_padDigits _ _ _ _ hus, expectCh, parseFraction_dot]

mutual
theorem toPy_toJson : ∀ (v : PyVal), PyVal.canonical v = true →
    ∃ j, PyVal.toJson v = some j ∧ Json.toPy j = v
  | .vNone, _ => ⟨.jnull, rfl, rfl⟩
  | .vBool b, _ => ⟨.jbool b, rfl, rfl⟩
  | .vInt n, _ => ⟨.jint n, rfl, rfl⟩
  | .vStr s, _ => ⟨.jstr s, rfl, rfl⟩
  | .vList xs, h => by
    obtain ⟨js, h1, h2⟩ := toPy_toJsonItems xs (by simpa [PyVal.canonical] using h)
    exact ⟨.jarr js, by rw [PyVal.toJson, h1]; rfl, by rw [Json.toPy, h2]⟩
  | .vDict kvs, h => by
    obtain ⟨js, h1, h2⟩ := toPy_toJsonPairs kvs (by simpa [PyVal.canonical] using h)
    exact ⟨.jobj js, by rw [PyVal.toJson, h1]; rfl, by rw [Json.toPy, h2]⟩

theorem toPy_toJsonItems : ∀ (xs : List PyVal), PyVal.canonicalItems xs = true →
    ∃ js, PyVal.toJsonItems xs = some js ∧ Json.toPyItems js = xs
  | [], _ => ⟨[], rfl, rfl⟩
  | x :: rest, h => by
    have hx : PyVal.canonical x = true ∧ PyVal.canonicalItems rest = true := by
      simpa [PyVal.canonicalItems, Bool.and_eq_true] using h
    obtain ⟨j, h1, h2⟩ := toPy_toJson x hx.1
    obtain ⟨js, h3, h4⟩ := toPy_toJsonItems rest hx.2
    refine ⟨j :: js, ?_, ?_⟩
    · rw [PyVal.toJsonItems, h1, h3]
      rfl
    · rw [Json.toPyItems, h2, h4]

theorem toPy_toJsonPairs : ∀ (kvs : List (String × PyVal)),
    PyVal.canonicalPairs kvs = true →
    ∃ js, PyVal.toJsonPairs kvs = some js ∧ Json.toPyPairs js = kvs
  | [], _ => ⟨[], rfl, rfl⟩
  | (k, v) :: rest, h => by
    have hx : PyVal.canonical v = true ∧ PyVal.canonicalPairs rest = true := by
      simpa [PyVal.canonicalPairs, Bool.and_eq_true] using h
    obtain ⟨j, h1, h2⟩ := toPy_toJson v hx.1
    obtain ⟨js, h3, h4⟩ := toPy_toJsonPairs rest hx.2
    refine ⟨(k, j) :: js, ?_, ?_⟩
    · rw [PyVal.toJsonPairs, h1, h3]
      rfl
    · rw [Json.toPyPairs, h2, h4]
end

/-- An event whose fields are fixed points of the construction validators —
the form in which every successfully constructed event leaves `Event(...)`:
the id is an already-lower-case UUID, the event type is already stripped,
the payload passed the size check, and the timestamp is a real `datetime`
instant. -/
def Event.WellFormed (e : Event) : Prop :=
  validateId e.id = .ok e.id ∧
    validateEventType e.event_type = .ok e.event_type ∧
    validatePayload e.payload = .ok e.payload ∧ e.timestamp.Valid

/-- Claim C5 (amended) — for every constructed event whose payload is in
canonical JSON form (its sequences are lists, not tuples), serializing to
the wire JSON object (id, ISO-8601 timestamp, event type, payload) and
parsing that object back reconstructs the event exactly, equal in all four
fields.  (For payloads containing tuples the round trip instead returns the
event with tuples replaced by lists — see the counterexample.) -/
theorem c5_roundtrip_canonical (e : Event) (hwf : e.WellFormed)
    (hc : PyVal.canonicalPairs e.payload = true) :
    (serializeEvent e).bind deserializeEvent = some e := by
  obtain ⟨hid, het, hp, hts⟩ := hwf
  obtain ⟨pkvs, h1, h2⟩ := toPy_toJsonPairs e.payload hc
  have hj : PyVal.toJson (.vDict e.payload) = some (.jobj pkvs) := by
    rw [PyVal.toJson, h1]
    rfl
  unfold serializeEvent
  rw [hj]
  simp only [Option.map_some', Option.some_bind]
  unfold deserializeEvent
  simp only [lookupJ]
  have n1 : ¬ ("id" : String) = "timestamp" := by decide
  have n2 : ¬ ("id" : String) = "event_type" := by decide
  have n3 : ¬ ("timestamp" : String) = "event_type" := by decide
  have n4 : ¬ ("id" : String) = "payload" := by decide
  have n5 : ¬ ("timestamp" : String) = "payload" := by decide
  have n6 : ¬ ("event_type" : String) = "payload" := by decide
  rw [if_neg n1, if_neg n2, if_neg n3, if_neg n4, if_neg n5, if_neg n6]
  simp only [if_true]
  norm_num
  rw [fromisoformat_isoformat e.timestamp hts, h2]
  dsimp only
  rw [mkEvent_ok_of e.id e.timestamp e.event_type e.payload hid het hp]

/-- A well-formed event with a canonical (tuple-free) payload. -/
def evC5 : Event :=
  ⟨uuid0, t0, "t", [("a", .vStr "hi"), ("b", .vList [.vInt 1])]⟩

/-- Claim C5 witness: the canonical event `evC5` round-trips exactly. -/
theorem c5_roundtrip_canonical_witness :
    (serializeEvent evC5).bind deserializeEvent = some evC5 :=
  c5_roundtrip_canonical evC5 ⟨rfl, rfl, rfl, by decide⟩ rfl

/-- A constructible event whose payload holds an (empty) Python tuple. -/
def evTup : Event := ⟨uuid0, tz0, "t", [("a", .vTuple [])]⟩

/-- The same event with the tuple replaced by a list. -/
def evLst : Event := ⟨uuid0, tz0, "t", [("a", .vList [])]⟩

/-- Claim C5 counterexample — an event whose payload contains a tuple (a
JSON-serializable value pydantic accepts) does not round-trip: `json.dumps`
writes the tuple as a JSON array, `json.loads` reads it back as a list, so
the reconstructed event differs from the original in the `payload` field. -/
theorem c5_claim_false_tuple_payload :
    (serializeEvent evTup).bind deserializeEvent = some evLst ∧ evLst ≠ evTup := by
  refine ⟨rfl, ?_⟩
  intro h
  have hp := congrArg Event.payload h
  simp [evLst, evTup] at hp
